import Mathlib

/-!
Dependency graph core (`source/blender/depsgraph/intern/depsgraph.cpp`).

A shallow embedding of the graph container of the dependency graph: the entity
map, relation bookkeeping on operation nodes, entry tags and the sort stage.

Objects of the C++ program live at addresses; a pointer is an address and the
heap is a set of tables from addresses to objects. A pointer that may be `NULL`
is an `Option Addr`.
-/

namespace Depsgraph

/-! ## Addresses and containers -/

/-- Address of a heap object (the value of a non-null pointer). -/
abbrev Addr := Nat

/-- Method `insert` of a pointer set (`std::set` family): the element is added
unless it is already a member. -/
def set_insert (x : Addr) (s : List Addr) : List Addr :=
  if x ∈ s then s else x :: s

/-- Method `erase` of a pointer set: no occurrence of the element is left. -/
def set_erase (x : Addr) (s : List Addr) : List Addr :=
  s.filter (fun y => y ≠ x)

/-- Map `IDNodeMap` from `const ID *` to `IDDepsNode *`, as the list of its entries. -/
abbrev IDNodeMap := List (Addr × Addr)

/-- Method `find` of the map, with `end()` as `none`. -/
def map_find (k : Addr) : IDNodeMap → Option Addr
  | [] => none
  | (k', v) :: rest => if k' = k then some v else map_find k rest

/-- Method `erase(key)` of the map. -/
def map_erase (k : Addr) (m : IDNodeMap) : IDNodeMap :=
  m.filter (fun e => e.1 ≠ k)

/-- Assignment `m[k] = v` of the map: the entry of `k` is replaced, or created. -/
def map_assign (k v : Addr) (m : IDNodeMap) : IDNodeMap :=
  if (map_find k m).isSome then m.map (fun e => if e.1 = k then (k, v) else e)
  else (k, v) :: m

/-- Keys of a map are unique: the invariant of the C++ container. -/
def map_unique_keys (m : IDNodeMap) : Prop :=
  (m.map Prod.fst).Nodup

instance (m : IDNodeMap) : Decidable (map_unique_keys m) := by
  unfold map_unique_keys; infer_instance

/-! ## Node and relation objects -/

/-- Relation object `DepsRelation`, with the members its constructor writes
(depsgraph.cpp:286-296). -/
structure DepsRelation where
  from_ : Addr
  to_ : Addr
  type : Nat
  name : String
deriving DecidableEq, Repr

/-- Modelled from the spec: the declaration of `OperationDepsNode`
(depsnode_operation.h is not among the sources). An operation node has a name,
two sets of relations, `inlinks` and `outlinks`, where the node is
respectively the target and the source, and the boolean `dirty`. -/
structure OperationDepsNode where
  name : String
  inlinks : List Addr
  outlinks : List Addr
  dirty : Bool
deriving DecidableEq, Repr

/-- Modelled from the spec: the enumeration `eDepsNode_Type` (its header is not
among the sources), with the members that depsgraph.cpp names. -/
inductive eDepsNode_Type where
  | DEPSNODE_TYPE_ROOT
  | DEPSNODE_TYPE_SUBGRAPH
  | DEPSNODE_TYPE_ID_REF
  | DEPSNODE_TYPE_PARAMETERS
  | DEPSNODE_TYPE_BONE
  | DEPSNODE_TYPE_SEQUENCER
deriving DecidableEq, Repr

/-- Modelled from the spec: the declaration of `ComponentDepsNode`
(depsnode_component.h is not among the sources). A component has a kind, a
subdata name and the set of operation nodes it owns. -/
structure ComponentDepsNode where
  type : eDepsNode_Type
  name : String
  operations : List Addr
deriving DecidableEq, Repr

/-- Modelled from the spec: the declaration of `IDDepsNode` (depsnode.h is not
among the sources). An entity node has the identity of its entity, a name and a
mapping from `(kind, subdata name)` to the component nodes it owns. -/
structure IDDepsNode where
  id : Addr
  name : String
  components : List ((eDepsNode_Type × String) × Addr)
deriving DecidableEq, Repr

/-- Modelled from the spec: the declaration of `SubgraphDepsNode` (depsnode.h is
not among the sources). A subgraph node has the identity it was created for
and a name. -/
structure SubgraphDepsNode where
  id : Addr
  name : String
deriving DecidableEq, Repr

/-- Modelled from the spec: the declaration of `RootDepsNode` (depsnode.h is not
among the sources), with its name. The time source it owns is not tracked. -/
structure RootDepsNode where
  name : String
deriving DecidableEq, Repr

/-- Heap of the program: one table per object type and the next address the
allocator hands out. -/
structure Memory where
  relations : Addr → Option DepsRelation
  operations : Addr → Option OperationDepsNode
  components : Addr → Option ComponentDepsNode
  id_nodes : Addr → Option IDDepsNode
  next : Addr
  subgraph_nodes : Addr → Option SubgraphDepsNode := fun _ => none
  root_nodes : Addr → Option RootDepsNode := fun _ => none

/-- Pointer of type `DepsNode *`, with the class of the node it points to. -/
inductive DepsNodeRef where
  | root (a : Addr)
  | id_ref (a : Addr)
  | component (a : Addr)
  | subgraph (a : Addr)
deriving DecidableEq, Repr

/-- Members of the class `Depsgraph` that depsgraph.cpp reads and writes. -/
structure Graph where
  root_node : Option Addr
  id_hash : IDNodeMap
  subgraphs : List Addr
  entry_tags : List Addr
deriving DecidableEq, Repr

/-- State of the program: one graph object and the heap. -/
structure State where
  graph : Graph
  mem : Memory

/-- Constructor `Depsgraph::Depsgraph` (depsgraph.cpp:45-48): no root node, and
the containers start empty. -/
def Graph.new : Graph :=
  { root_node := none, id_hash := [], subgraphs := [], entry_tags := [] }

/-- Heap without any object. -/
def Memory.empty : Memory :=
  { relations := fun _ => none, operations := fun _ => none,
    components := fun _ => none, id_nodes := fun _ => none, next := 1 }

/-- Write through an `OperationDepsNode *`: the node at `a` becomes `f node`.
The source dereferences the pointer unchecked; at an address that holds no
operation node the embedding leaves the heap as it is. -/
def Memory.modify_operation (m : Memory) (a : Addr)
    (f : OperationDepsNode → OperationDepsNode) : Memory :=
  match m.operations a with
  | some n => { m with operations := Function.update m.operations a (some (f n)) }
  | none => m

/-- Set `outlinks` of the operation node at `a`, empty when there is no such node. -/
def Memory.outlinks (m : Memory) (a : Addr) : List Addr :=
  match m.operations a with
  | some n => n.outlinks
  | none => []

/-- Set `inlinks` of the operation node at `a`, empty when there is no such node. -/
def Memory.inlinks (m : Memory) (a : Addr) : List Addr :=
  match m.operations a with
  | some n => n.inlinks
  | none => []

/-! ## Relations (depsgraph.cpp:246-305) -/

/-- Constructor `DepsRelation::DepsRelation` (depsgraph.cpp:286-296) run on the
object at `self`: the four members are written, then the relation is inserted
into `from->outlinks` and into `to->inlinks`. -/
def DepsRelation.construct (m : Memory) (self from_ to_ : Addr) (type : Nat)
    (description : String) : Memory :=
  let m1 : Memory :=
    { m with relations := Function.update m.relations self (some ⟨from_, to_, type, description⟩) }
  let m2 := m1.modify_operation from_ (fun n => { n with outlinks := set_insert self n.outlinks })
  m2.modify_operation to_ (fun n => { n with inlinks := set_insert self n.inlinks })

/-- Method `Depsgraph::add_new_relation` (depsgraph.cpp:247-254):
`new DepsRelation(from, to, type, description)`, whose address is returned.
No member of the graph object is touched. -/
def add_new_relation (s : State) (from_ to_ : Addr) (type : Nat) (description : String) :
    Addr × State :=
  let rel := s.mem.next
  (rel, { s with mem :=
    DepsRelation.construct { s.mem with next := s.mem.next + 1 } rel from_ to_ type description })

/-- Expression `delete rel` on a relation: the destructor
`DepsRelation::~DepsRelation` (depsgraph.cpp:298-305) erases the relation from
`from->outlinks` and from `to->inlinks`, then the object is freed. -/
def DepsRelation.destroy (m : Memory) (self : Addr) : Memory :=
  match m.relations self with
  | none => m
  | some rel =>
    let m1 := m.modify_operation rel.from_
      (fun n => { n with outlinks := set_erase self n.outlinks })
    let m2 := m1.modify_operation rel.to_
      (fun n => { n with inlinks := set_erase self n.inlinks })
    { m2 with relations := Function.update m2.relations self none }

/-! ## Entity nodes (depsgraph.cpp:207-244) -/

/-- Method `Depsgraph::find_id_node` (depsgraph.cpp:207-211). -/
def find_id_node (g : Graph) (id : Addr) : Option Addr :=
  map_find id g.id_hash

/-- Modelled from the spec: `factory->create_node(id, "", name)` of the factory
for `DEPSNODE_TYPE_ID_REF` (the node factories are not among the sources). A
new entity node is constructed for the identity, with the name and without
components; its address is returned. -/
def create_id_node (m : Memory) (id : Addr) (name : String) : Addr × Memory :=
  (m.next,
    { m with
      id_nodes := Function.update m.id_nodes m.next (some ⟨id, name, []⟩)
      next := m.next + 1 })

/-- Method `Depsgraph::add_id_node` (depsgraph.cpp:213-224). -/
def add_id_node (s : State) (id : Addr) (name : String) : Addr × State :=
  match find_id_node s.graph id with
  | some id_node => (id_node, s)
  | none =>
    let created := create_id_node s.mem id name
    (created.1,
      { graph := { s.graph with id_hash := map_assign id created.1 s.graph.id_hash },
        mem := created.2 })

/-- Modelled from the spec: the destructor of `OperationDepsNode` followed by
the release of the object (depsnode_operation.cpp is not among the sources). A
relation is destroyed when either endpoint is destroyed: every relation in the
inlinks and in the outlinks of the node is deleted, then the node is freed. -/
def OperationDepsNode.destroy (m : Memory) (self : Addr) : Memory :=
  match m.operations self with
  | none => m
  | some n =>
    let m1 := (n.inlinks ++ n.outlinks).foldl DepsRelation.destroy m
    { m1 with operations := Function.update m1.operations self none }

/-- Modelled from the spec: the destructor of `ComponentDepsNode` followed by
the release of the object (depsnode_component.cpp is not among the sources). A
component exclusively owns its operations: each is destroyed, then the
component is freed. -/
def ComponentDepsNode.destroy (m : Memory) (self : Addr) : Memory :=
  match m.components self with
  | none => m
  | some c =>
    let m1 := c.operations.foldl OperationDepsNode.destroy m
    { m1 with components := Function.update m1.components self none }

/-- Modelled from the spec: the destructor of `IDDepsNode` followed by the
release of the object (depsnode.cpp is not among the sources). An entity node
exclusively owns its components: each is destroyed, then the node is freed. -/
def IDDepsNode.destroy (m : Memory) (self : Addr) : Memory :=
  match m.id_nodes self with
  | none => m
  | some n =>
    let m1 := (n.components.map Prod.snd).foldl ComponentDepsNode.destroy m
    { m1 with id_nodes := Function.update m1.id_nodes self none }

/-- Method `Depsgraph::remove_id_node` (depsgraph.cpp:226-235). -/
def remove_id_node (s : State) (id : Addr) : State :=
  match find_id_node s.graph id with
  | some id_node =>
    { graph := { s.graph with id_hash := map_erase id s.graph.id_hash },
      mem := IDDepsNode.destroy s.mem id_node }
  | none => s

/-! ## Tagging and sorting (depsgraph.cpp:263-320) -/

/-- Method `Depsgraph::add_entry_tag` (depsgraph.cpp:310-320): a null pointer
is ignored, any other node is inserted into the set `entry_tags`. -/
def add_entry_tag (s : State) (node : Option Addr) : State :=
  match node with
  | none => s
  | some n => { s with graph := { s.graph with entry_tags := set_insert n s.graph.entry_tags } }

/-- Everything a run of `Depsgraph::sort` leaves behind: the state afterwards,
the evaluation order it has recorded and the diagnostics about broken cycles
it has recorded (the two endpoints and the description of the relation). -/
structure SortOutcome where
  state : State
  order : List Addr
  diagnostics : List (Addr × Addr × String)

/-- Method `Depsgraph::sort` (depsgraph.cpp:266-281). The whole body stands
between `#if 0` and `#endif`, so the compiled function has no statement: it
returns `void`, writes no member and no heap object, records no node in any
order and no diagnostic. -/
def sort (s : State) : SortOutcome :=
  { state := s, order := [], diagnostics := [] }

/-- One step along an outlink: some relation in the outlinks of `a` has `b` as
its target. -/
def edge (m : Memory) (a b : Addr) : Prop :=
  ∃ r ∈ m.outlinks a, ∃ rel, m.relations r = some rel ∧ rel.to_ = b

/-- Operation node `b` is reachable from the tag set `T` by following
outlinks, the members of `T` included. -/
def reachable (m : Memory) (T : List Addr) (b : Addr) : Prop :=
  ∃ t ∈ T, Relation.ReflTransGen (edge m) t b

/-! ## Queries from RNA pointers (depsgraph.cpp:61-137) -/

/-- Pointer `PointerRNA`, with the members depsgraph.cpp reads: `id.data`,
`type` (null for an untyped pointer) and `data`. -/
structure PointerRNA where
  id_data : Addr
  type : Option Addr
  data : Addr
deriving DecidableEq, Repr

/-- Parts of the RNA and DNA layers that depsgraph.cpp uses and that are not
among the sources, taken as parameters: the addresses of the struct types
`RNA_PoseBone`, `RNA_Object` and `RNA_Sequence`, the functions
`RNA_struct_is_ID` and `RNA_struct_is_a`, and the member `name` of the
`bPoseChannel` and of the `Sequence` at an address. -/
structure RNA where
  RNA_PoseBone : Addr
  RNA_Object : Addr
  RNA_Sequence : Addr
  RNA_struct_is_ID : Addr → Bool
  RNA_struct_is_a : Addr → Addr → Bool
  pchan_name : Addr → String
  seq_name : Addr → String

/-- Function `pointer_to_id_node_criteria` (depsgraph.cpp:63-77): `some id`
stands for `true` with `*id` written. -/
def pointer_to_id_node_criteria (rna : RNA) (ptr : PointerRNA) (prop : Option Addr) :
    Option Addr :=
  match ptr.type with
  | none => none
  | some t =>
    if prop.isNone then
      if rna.RNA_struct_is_ID t then some ptr.data else none
    else none

/-- Function `pointer_to_component_node_criteria` (depsgraph.cpp:79-117):
`some (id, type, subdata)` stands for `true` with the three results written.
The branch of `RNA_Object` is empty, and the chain of `else if` ends the
function with `false` after it. -/
def pointer_to_component_node_criteria (rna : RNA) (ptr : PointerRNA) (prop : Option Addr) :
    Option (Addr × eDepsNode_Type × String) :=
  match ptr.type with
  | none => none
  | some t =>
    if t = rna.RNA_PoseBone then
      some (ptr.id_data, eDepsNode_Type.DEPSNODE_TYPE_BONE, rna.pchan_name ptr.data)
    else if t = rna.RNA_Object then
      none
    else if rna.RNA_struct_is_a t rna.RNA_Sequence then
      some (ptr.id_data, eDepsNode_Type.DEPSNODE_TYPE_SEQUENCER, rna.seq_name ptr.data)
    else if prop.isSome then
      some (ptr.id_data, eDepsNode_Type.DEPSNODE_TYPE_PARAMETERS, "")
    else none

/-- Modelled from the spec: the method `IDDepsNode::find_component`
(depsnode.cpp is not among the sources). The components of an entity node are
a mapping from `(kind, subdata name)` to the component node; the lookup returns
the component of the key, if any. -/
def IDDepsNode.find_component (n : IDDepsNode) (type : eDepsNode_Type) (name : String) :
    Option Addr :=
  (n.components.find? (fun e => decide (e.1 = (type, name)))).map Prod.snd

/-- Method `Depsgraph::find_node_from_pointer` (depsgraph.cpp:120-137). -/
def find_node_from_pointer (rna : RNA) (s : State) (ptr : PointerRNA) (prop : Option Addr) :
    Option DepsNodeRef :=
  match pointer_to_id_node_criteria rna ptr prop with
  | some id => (find_id_node s.graph id).map DepsNodeRef.id_ref
  | none =>
    match pointer_to_component_node_criteria rna ptr prop with
    | some (id, type, name) =>
      match find_id_node s.graph id with
      | some id_node =>
        match s.mem.id_nodes id_node with
        | some n => (n.find_component type name).map DepsNodeRef.component
        | none => none
      | none => none
    | none => none

/-! ## Teardown (depsgraph.cpp:50-59, 198-205, 237-244, 332-335) -/

/-- Modelled from the spec: `delete` on the root node (its destructor is not
among the sources): the object is freed. -/
def RootDepsNode.destroy (m : Memory) (self : Addr) : Memory :=
  { m with root_nodes := Function.update m.root_nodes self none }

/-- Modelled from the spec: `delete` on a subgraph node (its destructor is not
among the sources): the object is freed. -/
def SubgraphDepsNode.destroy (m : Memory) (self : Addr) : Memory :=
  { m with subgraph_nodes := Function.update m.subgraph_nodes self none }

/-- Method `Depsgraph::clear_id_nodes` (depsgraph.cpp:237-244): every node of
the map is deleted, then the map is cleared. The second component lists the
deleted nodes in the order of the deletions. -/
def clear_id_nodes (s : State) : State × List DepsNodeRef :=
  ({ graph := { s.graph with id_hash := [] },
     mem := (s.graph.id_hash.map Prod.snd).foldl IDDepsNode.destroy s.mem },
   s.graph.id_hash.map (fun e => DepsNodeRef.id_ref e.2))

/-- Method `Depsgraph::clear_subgraph_nodes` (depsgraph.cpp:198-205): every
node of the set is deleted, then the set is cleared. The second component
lists the deleted nodes in the order of the deletions. -/
def clear_subgraph_nodes (s : State) : State × List DepsNodeRef :=
  ({ graph := { s.graph with subgraphs := [] },
     mem := s.graph.subgraphs.foldl SubgraphDepsNode.destroy s.mem },
   s.graph.subgraphs.map DepsNodeRef.subgraph)

/-- Function `DEG_graph_free` (depsgraph.cpp:332-335), that is `delete graph`
with the destructor `Depsgraph::~Depsgraph` (depsgraph.cpp:50-59): the root
node is deleted when there is one, then `clear_id_nodes()` runs, then
`clear_subgraph_nodes()`. The member `root_node` is not written. The second
component lists the deleted nodes in the order of the deletions. -/
def DEG_graph_free (s : State) : State × List DepsNodeRef :=
  let s1 : State :=
    match s.graph.root_node with
    | some r => { s with mem := RootDepsNode.destroy s.mem r }
    | none => s
  let log1 : List DepsNodeRef :=
    match s.graph.root_node with
    | some r => [DepsNodeRef.root r]
    | none => []
  let r2 := clear_id_nodes s1
  let r3 := clear_subgraph_nodes r2.1
  (r3.1, log1 ++ r2.2 ++ r3.2)

/-- One call of the entity interface of the graph. -/
inductive EntityCall where
  | add (id : Addr) (name : String)
  | remove (id : Addr)
deriving DecidableEq, Repr

/-- State after a sequence of `add_id_node` and `remove_id_node` calls. -/
def run_calls (s : State) : List EntityCall → State
  | [] => s
  | EntityCall.add id name :: rest => run_calls (add_id_node s id name).2 rest
  | EntityCall.remove id :: rest => run_calls (remove_id_node s id) rest

/-! ## Root and subgraph nodes (depsgraph.cpp:141-196) -/

/-- Method `Depsgraph::add_root_node` (depsgraph.cpp:141-148). The call
`factory->create_node(NULL, "", "Root (Scene)")` of the factory for
`DEPSNODE_TYPE_ROOT` is modelled from the spec (the node factories are not
among the sources): a new root node with that name is constructed and its
address is returned. -/
def add_root_node (s : State) : Addr × State :=
  match s.graph.root_node with
  | some r => (r, s)
  | none =>
    (s.mem.next,
      { graph := { s.graph with root_node := some s.mem.next },
        mem := { s.mem with
          root_nodes := Function.update s.mem.root_nodes s.mem.next (some ⟨"Root (Scene)"⟩)
          next := s.mem.next + 1 } })

/-- Method `Depsgraph::add_subgraph_node` (depsgraph.cpp:172-190), for a
non-null `id`; `id_name` gives the member `name` of the `ID` at an address.
The call `factory->create_node(id, "", id->name+2)` of the factory for
`DEPSNODE_TYPE_SUBGRAPH` is modelled from the spec (the node factories are not
among the sources): a new subgraph node for the identity is constructed, named
by the name without its first two characters. The node is inserted into
`subgraphs`; the body of `if (id)` is compiled out, so `id_hash` is not
written. -/
def add_subgraph_node (id_name : Addr → String) (s : State) (id : Addr) : Addr × State :=
  (s.mem.next,
    { graph := { s.graph with subgraphs := set_insert s.mem.next s.graph.subgraphs },
      mem := { s.mem with
        subgraph_nodes :=
          Function.update s.mem.subgraph_nodes s.mem.next (some ⟨id, (id_name id).drop 2⟩)
        next := s.mem.next + 1 } })

/-- Method `Depsgraph::remove_subgraph_node` (depsgraph.cpp:192-196): the node
is erased from `subgraphs` and deleted. -/
def remove_subgraph_node (s : State) (subgraph_node : Addr) : State :=
  { graph := { s.graph with subgraphs := set_erase subgraph_node s.graph.subgraphs },
    mem := SubgraphDepsNode.destroy s.mem subgraph_node }

/-- One call of a function of depsgraph.cpp that writes the graph:
`add_id_node`, `remove_id_node`, `add_new_relation`, `add_entry_tag`, `sort`,
`add_root_node`, `add_subgraph_node`, `remove_subgraph_node`, `clear_id_nodes`,
`clear_subgraph_nodes` and `DEG_graph_free` (`clear`). The method
`add_new_time_relation` only forwards to a method of the time source node that
is not among the sources, and is left out. -/
inductive GraphCall where
  | add_entity (id : Addr) (name : String)
  | remove_entity (id : Addr)
  | add_relation (from_ to_ : Addr) (type : Nat) (description : String)
  | tag_operation (node : Option Addr)
  | solve
  | add_root
  | add_subgraph (id : Addr)
  | remove_subgraph (subgraph_node : Addr)
  | clear_id_nodes
  | clear_subgraph_nodes
  | clear
deriving DecidableEq, Repr

/-- State after one call of an operation of the graph. -/
def run_call (id_name : Addr → String) (s : State) : GraphCall → State
  | GraphCall.add_entity id name => (add_id_node s id name).2
  | GraphCall.remove_entity id => remove_id_node s id
  | GraphCall.add_relation from_ to_ type description =>
    (add_new_relation s from_ to_ type description).2
  | GraphCall.tag_operation node => add_entry_tag s node
  | GraphCall.solve => (sort s).state
  | GraphCall.add_root => (add_root_node s).2
  | GraphCall.add_subgraph id => (add_subgraph_node id_name s id).2
  | GraphCall.remove_subgraph subgraph_node => remove_subgraph_node s subgraph_node
  | GraphCall.clear_id_nodes => (clear_id_nodes s).1
  | GraphCall.clear_subgraph_nodes => (clear_subgraph_nodes s).1
  | GraphCall.clear => (DEG_graph_free s).1

/-! ## Predicates of the statements -/

/-- Operation nodes owned by the entity node at `id_node`: the operations of
its components. -/
def entity_operations (m : Memory) (id_node : Addr) : List Addr :=
  match m.id_nodes id_node with
  | none => []
  | some n =>
    (n.components.map Prod.snd).flatMap (fun c =>
      match m.components c with
      | none => []
      | some comp => comp.operations)

/-- Adjacency is consistent: a link set of a node holds only live relations
that have the node as the matching endpoint, and a live relation is a member
of the outlinks of its source and of the inlinks of its target. -/
structure Memory.consistent (m : Memory) : Prop where
  out_from : ∀ x r, r ∈ m.outlinks x → ∃ rel, m.relations r = some rel ∧ rel.from_ = x
  in_to : ∀ x r, r ∈ m.inlinks x → ∃ rel, m.relations r = some rel ∧ rel.to_ = x
  rel_out : ∀ r rel, m.relations r = some rel → r ∈ m.outlinks rel.from_
  rel_in : ∀ r rel, m.relations r = some rel → r ∈ m.inlinks rel.to_

/-- Link sets hold only live relations with the matching endpoint. -/
def Memory.links_valid (m : Memory) : Prop :=
  (∀ x r, r ∈ m.outlinks x → ∃ rel, m.relations r = some rel ∧ rel.from_ = x) ∧
  (∀ x r, r ∈ m.inlinks x → ∃ rel, m.relations r = some rel ∧ rel.to_ = x)

/-- While the relation `r` is live it is a member of a link set of the node `o`. -/
def Memory.attached (m : Memory) (r o : Addr) : Prop :=
  m.relations r ≠ none → r ∈ m.outlinks o ∨ r ∈ m.inlinks o

/-- Two operation nodes, at addresses 1 and 2, and no relation. -/
def mem_two_ops : Memory :=
  { relations := fun _ => none
    operations := fun p =>
      if p = 1 then some ⟨"a", [], [], false⟩ else if p = 2 then some ⟨"b", [], [], false⟩ else none
    components := fun _ => none
    id_nodes := fun _ => none
    next := 3 }

/-- Empty graph over the heap `mem_two_ops`. -/
def state_two_ops : State := ⟨Graph.new, mem_two_ops⟩

/-- State `state_two_ops` after `add_new_relation(1, 2, 0, "drives")`: the
relation lives at address 3. -/
def state_linked : State := (add_new_relation state_two_ops 1 2 0 "drives").2

/-- Heap of the example scene: entity `E1` (node 10) owns a Parameters
component (20) with the operations `P1a` (1) and `P1b` (2); entity `E2`
(node 11) owns the bone component `spine` (21) with the operation `P2` (3);
the relation at 30 goes from `P1a` to `P2`. -/
def scene_mem : Memory :=
  { relations := fun p => if p = 30 then some ⟨1, 3, 0, "P1a -> P2"⟩ else none
    operations := fun p =>
      if p = 1 then some ⟨"P1a", [], [30], false⟩
      else if p = 2 then some ⟨"P1b", [], [], false⟩
      else if p = 3 then some ⟨"P2", [30], [], false⟩
      else none
    components := fun p =>
      if p = 20 then some ⟨.DEPSNODE_TYPE_PARAMETERS, "", [1, 2]⟩
      else if p = 21 then some ⟨.DEPSNODE_TYPE_BONE, "spine", [3]⟩
      else none
    id_nodes := fun p =>
      if p = 10 then some ⟨100, "E1", [((.DEPSNODE_TYPE_PARAMETERS, ""), 20)]⟩
      else if p = 11 then some ⟨200, "E2", [((.DEPSNODE_TYPE_BONE, "spine"), 21)]⟩
      else none
    next := 31 }

/-- Example scene: the entities `E1` (identity 100) and `E2` (identity 200)
are registered and nothing is tagged. -/
def scene : State :=
  { graph := { root_node := none, id_hash := [(100, 10), (200, 11)], subgraphs := [],
               entry_tags := [] },
    mem := scene_mem }

/-- Example scene after `add_entry_tag(P1a)`. -/
def scene_tagged : State := add_entry_tag scene (some 1)

/-- Three operation nodes `A` (1), `B` (2) and `C` (3) without relations. -/
def mem_three_ops : Memory :=
  { relations := fun _ => none
    operations := fun p =>
      if p = 1 then some ⟨"A", [], [], false⟩
      else if p = 2 then some ⟨"B", [], [], false⟩
      else if p = 3 then some ⟨"C", [], [], false⟩
      else none
    components := fun _ => none
    id_nodes := fun _ => none
    next := 4 }

/-- Cycle `A -> B -> C -> A` built with `add_new_relation` (the relations live
at 4, 5 and 6), with `A` tagged. -/
def cycle_tagged : State :=
  add_entry_tag
    (add_new_relation
      (add_new_relation
        (add_new_relation ⟨Graph.new, mem_three_ops⟩ 1 2 0 "A -> B").2 2 3 0 "B -> C").2
      3 1 0 "C -> A").2
    (some 1)

/-- Chain `A -> B -> C` built with `add_new_relation` over `mem_three_ops` (the
relations live at 4 and 5). -/
def state_chain : State :=
  (add_new_relation
    (add_new_relation ⟨Graph.new, mem_three_ops⟩ 1 2 0 "A -> B").2 2 3 0 "B -> C").2

/-- Example RNA layer: the struct types `RNA_PoseBone` (1001), `RNA_Object`
(1002), `RNA_Sequence` (1003), the ID type `RNA_Scene` (1004), the strip type
`RNA_SoundSequence` (1005, derived from `RNA_Sequence`) and the plain type
`RNA_Modifier` (1006); the pose channel at 500 is named `spine` and the strip
at 600 is named `SQclip`. -/
def rna_example : RNA :=
  { RNA_PoseBone := 1001
    RNA_Object := 1002
    RNA_Sequence := 1003
    RNA_struct_is_ID := fun t => decide (t = 1002 ∨ t = 1004)
    RNA_struct_is_a := fun t u => decide (t = u ∨ (t = 1005 ∧ u = 1003))
    pchan_name := fun a => if a = 500 then "spine" else ""
    seq_name := fun a => if a = 600 then "SQclip" else "" }

/-- Example scene with a third entity `E3` (identity 300, node 12) that owns a
sequencer component `SQclip` (22) without operations, with a root node (50)
and with a subgraph node (40). -/
def scene_full : State :=
  { graph := { root_node := some 50, id_hash := [(100, 10), (200, 11), (300, 12)],
               subgraphs := [40], entry_tags := [] },
    mem :=
      { scene_mem with
        components := fun p =>
          if p = 22 then some ⟨.DEPSNODE_TYPE_SEQUENCER, "SQclip", []⟩ else scene_mem.components p
        id_nodes := fun p =>
          if p = 12 then some ⟨300, "E3", [((.DEPSNODE_TYPE_SEQUENCER, "SQclip"), 22)]⟩
          else scene_mem.id_nodes p
        subgraph_nodes := fun p => if p = 40 then some ⟨400, "Group"⟩ else none
        root_nodes := fun p => if p = 50 then some ⟨"Root (Scene)"⟩ else none
        next := 51 } }

/-- Member `name` of the example `ID` blocks: the object `OBCube` (100), the
armature `ARRig` (200), the scene `SCScene` (300) and the group `GRGroup` (400). -/
def id_name_example : Addr → String := fun a =>
  if a = 100 then "OBCube" else if a = 200 then "ARRig"
  else if a = 300 then "SCScene" else if a = 400 then "GRGroup" else ""

end Depsgraph

/-! Custom data layers in the point cache
(`source/blender/pointcache/alembic/abc_customdata.cpp`). A C string is the
list of the characters before its terminator; an `int` is an integer of 32 bits. -/

namespace PTC

/-! ## Strings and streams -/

/-- Characters that a read of a `char *` sees: the ones before the first
terminating zero. -/
def c_string (p : List Char) : List Char :=
  p.takeWhile (fun c => c ≠ Char.ofNat 0)

/-- Insertion `ss << n` of an `int` into a stream of the C++ standard library:
the decimal digits, after a minus sign for a negative value. -/
def ostream_int (n : Int) : List Char :=
  if n < 0 then '-' :: Nat.toDigits 10 (-n).toNat else Nat.toDigits 10 n.toNat

/-- Whitespace that the extraction of a number skips. -/
def isspace (c : Char) : Bool :=
  c = ' ' || c = '\t' || c = '\n' || c = '\r' || c = Char.ofNat 11 || c = Char.ofNat 12

/-- Value of a run of decimal digits. -/
def digits_value (ds : List Char) : Nat :=
  ds.foldl (fun a c => 10 * a + (c.toNat - 48)) 0

/-- Extraction `ss >> n` of an `int` from a stream of the C++ standard library
(C++11), as the value of `n` afterwards; `n0` is the value of `n` before.
Leading whitespace is skipped; when the stream ends there, the extraction fails
before anything is stored and `n` keeps `n0`. Otherwise an optional sign and
the longest run of digits are read; without a digit the value stored is 0, and
a value out of the range of `int` is replaced by the nearest bound. -/
def istream_int (s : List Char) (n0 : Int) : Int :=
  let s1 := s.dropWhile isspace
  let neg : Bool := s1.head? = some '-'
  let s2 := if s1.head? = some '-' ∨ s1.head? = some '+' then s1.tail else s1
  let ds := s2.takeWhile Char.isDigit
  if s1 = [] then n0
  else if ds = [] then 0
  else if neg then
    if digits_value ds > 2147483648 then -2147483648 else -(digits_value ds : Int)
  else
    if digits_value ds > 2147483647 then 2147483647 else (digits_value ds : Int)

/-! ## Property names of layers (abc_customdata.cpp:219-256) -/

/-- Function `cdtype_to_name` (abc_customdata.cpp:220-232). The function
`CustomData_get_layer_name` of the custom data API is not among the sources
and is a parameter: it gives the characters at the returned pointer, or `none`
for a null pointer. -/
def cdtype_to_name (CustomData_get_layer_name : Nat → Int → Option (List Char))
    (type : Nat) (n : Int) : List Char :=
  match CustomData_get_layer_name type n with
  | some layer_name =>
    if c_string layer_name ≠ [] then 'S' :: c_string layer_name
    else 'N' :: ostream_int n
  | none => 'N' :: ostream_int n

/-- Function `cdtype_from_name` (abc_customdata.cpp:235-256): the pair of the
results `*n` and `layer_name`; `n` is the value of `*n` at the call. The
function `BLI_strncpy` is not among the sources and is a parameter: it maps the
source string and the size of the buffer to the string left in the buffer. -/
def cdtype_from_name (BLI_strncpy : List Char → Nat → List Char) (name : List Char)
    (n : Int) (max_layer_name : Nat) : Int × List Char :=
  match name with
  | [] => (-1, [])
  | c :: rest =>
    if c = 'S' then (-1, BLI_strncpy (c_string rest) max_layer_name)
    else if c = 'N' then (istream_int (c_string rest) n, [])
    else (-1, [])

/-! ## Samples of the origin index layer (abc_customdata.cpp:61-67, 108-120) -/

/-- Results of reading a sample that abc_customdata.cpp returns. -/
inductive PTCReadSampleResult where
  | PTC_READ_SAMPLE_INVALID
  | PTC_READ_SAMPLE_EXACT
deriving DecidableEq, Repr

/-- Bytes of an `int` in memory, lowest byte first. -/
def int32_bytes (v : Int) : List Nat :=
  let u := (v % 4294967296).toNat
  [u % 256, u / 256 % 256, u / 65536 % 256, u / 16777216 % 256]

/-- Value of the `int` that four bytes in memory hold, lowest byte first. -/
def bytes_int32 (b0 b1 b2 b3 : Nat) : Int :=
  let u := b0 + 256 * b1 + 65536 * b2 + 16777216 * b3
  if u < 2147483648 then (u : Int) else (u : Int) - 4294967296

/-- Bytes of an array of `int`. -/
def int32_array_bytes (l : List Int) : List Nat :=
  l.flatMap int32_bytes

/-- Array of `int` that a run of bytes holds. -/
def bytes_int32_array : List Nat → List Int
  | b0 :: b1 :: b2 :: b3 :: rest => bytes_int32 b0 b1 b2 b3 :: bytes_int32_array rest
  | _ => []

/-- Function `memcpy(dst, src, n)`: the first `n` bytes of the destination are
replaced by the first `n` bytes of the source. -/
def memcpy (dst src : List Nat) (n : Nat) : List Nat :=
  src.take n ++ dst.drop n

/-- Function `write_sample<CD_ORIGINDEX>` (abc_customdata.cpp:61-67): the
sample that the array property of the layer receives, `num_data` values of
type `int` starting at `data`. -/
def write_sample_CD_ORIGINDEX (data : List Int) (num_data : Nat) : List Int :=
  data.take num_data

/-- Function `read_sample<CD_ORIGINDEX>` (abc_customdata.cpp:108-120) on the
stored sample of the property: the result and the destination array
afterwards. The call is `memcpy(data, sample->getData(), num_data)`, with
`num_data` as the number of bytes. -/
def read_sample_CD_ORIGINDEX (sample : List Int) (data : List Int) (num_data : Nat) :
    PTCReadSampleResult × List Int :=
  if sample.length ≠ num_data then (PTCReadSampleResult.PTC_READ_SAMPLE_INVALID, data)
  else
    (PTCReadSampleResult.PTC_READ_SAMPLE_EXACT,
      bytes_int32_array (memcpy (int32_array_bytes data) (int32_array_bytes sample) num_data))

/-! ## Example values -/

/-- Function `BLI_strncpy` as blenlib documents it: at most `maxncpy - 1`
characters are copied and the result is terminated. -/
def BLI_strncpy_example (src : List Char) (maxncpy : Nat) : List Char :=
  src.take (maxncpy - 1)

/-- Layer names of an example mesh: the layer 0 of every type is named `UVMap`,
the other layers have an empty name. -/
def layer_name_example (_type : Nat) (n : Int) : Option (List Char) :=
  if n = 0 then some ['U', 'V', 'M', 'a', 'p'] else some []

end PTC

namespace Depsgraph

/-! ## Facts about the containers -/

theorem mem_set_insert (x y : Addr) (s : List Addr) :
    y ∈ set_insert x s ↔ y = x ∨ y ∈ s := by
  unfold set_insert
  by_cases h : x ∈ s
  · simp only [h, if_true]
    constructor
    · intro hy; exact Or.inr hy
    · rintro (rfl | hy)
      · exact h
      · exact hy
  · simp [h]

theorem mem_set_erase (x y : Addr) (s : List Addr) :
    y ∈ set_erase x s ↔ y ∈ s ∧ y ≠ x := by
  simp [set_erase]

theorem set_erase_of_not_mem (x : Addr) (s : List Addr) (h : x ∉ s) :
    set_erase x s = s := by
  unfold set_erase
  rw [List.filter_eq_self]
  intro y hy
  have : y ≠ x := fun e => h (e ▸ hy)
  simpa using this

theorem set_erase_set_insert (x : Addr) (s : List Addr) (h : x ∉ s) :
    set_erase x (set_insert x s) = s := by
  have h1 : set_insert x s = x :: s := by simp [set_insert, h]
  rw [h1]
  have h2 : set_erase x (x :: s) = set_erase x s := by simp [set_erase]
  rw [h2, set_erase_of_not_mem x s h]

theorem map_find_erase_self (k : Addr) (m : IDNodeMap) :
    map_find k (map_erase k m) = none := by
  induction m with
  | nil => rfl
  | cons e rest ih =>
    obtain ⟨k', v⟩ := e
    by_cases h : k' = k
    · simpa [map_erase, h] using ih
    · have : map_erase k ((k', v) :: rest) = (k', v) :: map_erase k rest := by
        simp [map_erase, h]
      rw [this]
      simp [map_find, h, ih]

theorem map_find_erase_ne (k j : Addr) (m : IDNodeMap) (hj : j ≠ k) :
    map_find j (map_erase k m) = map_find j m := by
  induction m with
  | nil => rfl
  | cons e rest ih =>
    obtain ⟨k', v⟩ := e
    by_cases h : k' = k
    · have h1 : map_erase k ((k', v) :: rest) = map_erase k rest := by
        simp [map_erase, h]
      have h2 : k' ≠ j := fun e => hj (e ▸ h.symm ▸ rfl)
      rw [h1]
      simp only [map_find, h2, if_false]
      exact ih
    · have h1 : map_erase k ((k', v) :: rest) = (k', v) :: map_erase k rest := by
        simp [map_erase, h]
      rw [h1]
      by_cases h2 : k' = j
      · simp [map_find, h2]
      · simp [map_find, h2, ih]

theorem map_find_none_iff (k : Addr) (m : IDNodeMap) :
    map_find k m = none ↔ k ∉ m.map Prod.fst := by
  induction m with
  | nil => simp [map_find]
  | cons e rest ih =>
    obtain ⟨k', v⟩ := e
    by_cases h : k' = k
    · simp [map_find, h]
    · have h3 : ¬ k = k' := fun e => h e.symm
      simp [map_find, h, h3, ih]

theorem map_assign_of_find_none (k v : Addr) (m : IDNodeMap) (h : map_find k m = none) :
    map_assign k v m = (k, v) :: m := by
  simp [map_assign, h]

theorem map_find_assign_self (k v : Addr) (m : IDNodeMap) :
    map_find k (map_assign k v m) = some v := by
  unfold map_assign
  by_cases h : (map_find k m).isSome
  · simp only [h, if_true]
    induction m with
    | nil => simp [map_find] at h
    | cons e rest ih =>
      obtain ⟨k', w⟩ := e
      by_cases h2 : k' = k
      · subst h2
        show map_find k' ((if k' = k' then (k', v) else (k', w)) :: _) = some v
        rw [if_pos rfl]
        simp [map_find]
      · have h3 : (map_find k rest).isSome := by simpa [map_find, h2] using h
        show map_find k ((if k' = k then (k, v) else (k', w)) :: _) = some v
        rw [if_neg h2]
        simp only [map_find, h2, if_false]
        exact ih h3
  · simp [h, map_find]

theorem map_erase_of_find_none (k : Addr) (m : IDNodeMap) (h : map_find k m = none) :
    map_erase k m = m := by
  unfold map_erase
  rw [List.filter_eq_self]
  intro e he
  have hk := (map_find_none_iff k m).1 h
  have : e.1 ≠ k := fun e' => hk (e' ▸ List.mem_map_of_mem Prod.fst he)
  simpa using this

/-! ## Facts about writes to operation nodes -/

theorem modify_operation_relations (m : Memory) (a : Addr)
    (f : OperationDepsNode → OperationDepsNode) :
    (m.modify_operation a f).relations = m.relations := by
  unfold Memory.modify_operation
  cases m.operations a <;> rfl

theorem modify_operation_self (m : Memory) (a : Addr)
    (f : OperationDepsNode → OperationDepsNode) :
    (m.modify_operation a f).operations a = (m.operations a).map f := by
  unfold Memory.modify_operation
  cases h : m.operations a with
  | none => simp [h]
  | some n => simp

theorem modify_operation_other (m : Memory) (a b : Addr)
    (f : OperationDepsNode → OperationDepsNode) (h : b ≠ a) :
    (m.modify_operation a f).operations b = m.operations b := by
  unfold Memory.modify_operation
  cases m.operations a with
  | none => rfl
  | some n => simp [Function.update, h]

theorem modify_operation_apply (m : Memory) (a x : Addr)
    (f : OperationDepsNode → OperationDepsNode) :
    (m.modify_operation a f).operations x
      = if x = a then (m.operations x).map f else m.operations x := by
  by_cases h : x = a
  · subst h
    rw [if_pos rfl, modify_operation_self]
  · rw [if_neg h, modify_operation_other m a x f h]

/-- Operation table after the constructor of a relation. -/
theorem construct_operations (m : Memory) (r a b : Addr) (ty : Nat) (d : String) (x : Addr) :
    (DepsRelation.construct m r a b ty d).operations x
      = (m.operations x).map (fun n =>
          { n with
            inlinks := if x = b then set_insert r n.inlinks else n.inlinks
            outlinks := if x = a then set_insert r n.outlinks else n.outlinks }) := by
  unfold DepsRelation.construct
  simp only [modify_operation_apply]
  cases h : m.operations x with
  | none => split_ifs <;> simp [h]
  | some n => split_ifs <;> simp [h]

/-- Relation table after the constructor of a relation. -/
theorem construct_relations (m : Memory) (r a b : Addr) (ty : Nat) (d : String) :
    (DepsRelation.construct m r a b ty d).relations
      = Function.update m.relations r (some ⟨a, b, ty, d⟩) := by
  unfold DepsRelation.construct
  simp only [modify_operation_relations]

/-- Operation table after the destruction of a live relation. -/
theorem destroy_operations (m : Memory) (r : Addr) (rel : DepsRelation)
    (h : m.relations r = some rel) (x : Addr) :
    (DepsRelation.destroy m r).operations x
      = (m.operations x).map (fun n =>
          { n with
            inlinks := if x = rel.to_ then set_erase r n.inlinks else n.inlinks
            outlinks := if x = rel.from_ then set_erase r n.outlinks else n.outlinks }) := by
  unfold DepsRelation.destroy
  simp only [h, modify_operation_apply]
  cases h2 : m.operations x with
  | none => split_ifs <;> simp [h2]
  | some n => split_ifs <;> simp [h2]

/-- Relation table after the destruction of a live relation. -/
theorem destroy_relations (m : Memory) (r : Addr) (rel : DepsRelation)
    (h : m.relations r = some rel) :
    (DepsRelation.destroy m r).relations = Function.update m.relations r none := by
  unfold DepsRelation.destroy
  simp only [h, modify_operation_relations]

theorem destroy_of_dead (m : Memory) (r : Addr) (h : m.relations r = none) :
    DepsRelation.destroy m r = m := by
  unfold DepsRelation.destroy
  simp only [h]

/-! ## Relation symmetry -/

/-- C1: for operation nodes `a` and `b`, the relation `r` returned by
`add_new_relation(a, b, type, description)` has `from = a` and `to = b`, is a
member of the outlinks of `a` and a member of the inlinks of `b`; so `b` is
the target of a relation in the outlinks of `a`, and `a` the source of a
relation in the inlinks of `b`. -/
theorem add_new_relation_registers (s : State) (a b : Addr) (type : Nat)
    (description : String)
    (ha : (s.mem.operations a).isSome) (hb : (s.mem.operations b).isSome) :
    ((add_new_relation s a b type description).2.mem.relations
        (add_new_relation s a b type description).1
      = some { from_ := a, to_ := b, type := type, name := description }) ∧
    (add_new_relation s a b type description).1
      ∈ (add_new_relation s a b type description).2.mem.outlinks a ∧
    (add_new_relation s a b type description).1
      ∈ (add_new_relation s a b type description).2.mem.inlinks b ∧
    (∃ x ∈ (add_new_relation s a b type description).2.mem.outlinks a, ∃ rel,
      (add_new_relation s a b type description).2.mem.relations x = some rel ∧ rel.to_ = b) ∧
    (∃ x ∈ (add_new_relation s a b type description).2.mem.inlinks b, ∃ rel,
      (add_new_relation s a b type description).2.mem.relations x = some rel ∧ rel.from_ = a) := by
  obtain ⟨na, hna⟩ := Option.isSome_iff_exists.1 ha
  obtain ⟨nb, hnb⟩ := Option.isSome_iff_exists.1 hb
  have h1 : (add_new_relation s a b type description).2.mem.relations
      (add_new_relation s a b type description).1
        = some { from_ := a, to_ := b, type := type, name := description } := by
    simp [add_new_relation, construct_relations]
  have h2 : (add_new_relation s a b type description).1
      ∈ (add_new_relation s a b type description).2.mem.outlinks a := by
    simp [add_new_relation, Memory.outlinks, construct_operations, hna, mem_set_insert]
  have h3 : (add_new_relation s a b type description).1
      ∈ (add_new_relation s a b type description).2.mem.inlinks b := by
    simp [add_new_relation, Memory.inlinks, construct_operations, hnb, mem_set_insert]
  exact ⟨h1, h2, h3, ⟨_, h2, _, h1, rfl⟩, ⟨_, h3, _, h1, rfl⟩⟩

theorem add_new_relation_registers_witness :
    ((state_two_ops.mem.operations 1).isSome ∧ (state_two_ops.mem.operations 2).isSome) ∧
    (((add_new_relation state_two_ops 1 2 0 "drives").2.mem.relations
        (add_new_relation state_two_ops 1 2 0 "drives").1
      = some { from_ := 1, to_ := 2, type := 0, name := "drives" }) ∧
    (add_new_relation state_two_ops 1 2 0 "drives").1
      ∈ (add_new_relation state_two_ops 1 2 0 "drives").2.mem.outlinks 1 ∧
    (add_new_relation state_two_ops 1 2 0 "drives").1
      ∈ (add_new_relation state_two_ops 1 2 0 "drives").2.mem.inlinks 2 ∧
    (∃ x ∈ (add_new_relation state_two_ops 1 2 0 "drives").2.mem.outlinks 1, ∃ rel,
      (add_new_relation state_two_ops 1 2 0 "drives").2.mem.relations x = some rel ∧
        rel.to_ = 2) ∧
    (∃ x ∈ (add_new_relation state_two_ops 1 2 0 "drives").2.mem.inlinks 2, ∃ rel,
      (add_new_relation state_two_ops 1 2 0 "drives").2.mem.relations x = some rel ∧
        rel.from_ = 1)) :=
  ⟨⟨by decide, by decide⟩,
    add_new_relation_registers state_two_ops 1 2 0 "drives" (by decide) (by decide)⟩

theorem outlinks_destroy (m : Memory) (r : Addr) (rel : DepsRelation)
    (h : m.relations r = some rel) (x : Addr) :
    (DepsRelation.destroy m r).outlinks x
      = if x = rel.from_ then set_erase r (m.outlinks x) else m.outlinks x := by
  unfold Memory.outlinks
  rw [destroy_operations m r rel h]
  cases h2 : m.operations x with
  | none => simp [set_erase]
  | some n => simp

theorem inlinks_destroy (m : Memory) (r : Addr) (rel : DepsRelation)
    (h : m.relations r = some rel) (x : Addr) :
    (DepsRelation.destroy m r).inlinks x
      = if x = rel.to_ then set_erase r (m.inlinks x) else m.inlinks x := by
  unfold Memory.inlinks
  rw [destroy_operations m r rel h]
  cases h2 : m.operations x with
  | none => simp [set_erase]
  | some n => simp

/-- C2: (i) in every heap where `r` is a relation from `a` to `b`, after
`delete r` the relation is a member of neither the outlinks of `a` nor the
inlinks of `b` and is freed, while every other relation is a member of a link
set of a node exactly when it was before; (ii) `add_new_relation(a, b, ..)`
followed by the removal of the returned relation restores the operation nodes
(so both link sets of both endpoints) and the relation table, when the link
sets hold no dangling pointer and the allocator hands out an address not in use. -/
theorem remove_relation_detaches (m : Memory) (r : Addr) (rel : DepsRelation)
    (s : State) (a b : Addr) (type : Nat) (description : String)
    (hr : m.relations r = some rel)
    (hout : ∀ x ∈ s.mem.outlinks a, (s.mem.relations x).isSome)
    (hin : ∀ x ∈ s.mem.inlinks b, (s.mem.relations x).isSome)
    (hnew : s.mem.relations s.mem.next = none) :
    (r ∉ (DepsRelation.destroy m r).outlinks rel.from_ ∧
      r ∉ (DepsRelation.destroy m r).inlinks rel.to_ ∧
      (DepsRelation.destroy m r).relations r = none ∧
      ∀ x r', r' ≠ r →
        (r' ∈ (DepsRelation.destroy m r).outlinks x ↔ r' ∈ m.outlinks x) ∧
        (r' ∈ (DepsRelation.destroy m r).inlinks x ↔ r' ∈ m.inlinks x) ∧
        (DepsRelation.destroy m r).relations r' = m.relations r') ∧
    ((DepsRelation.destroy (add_new_relation s a b type description).2.mem
        (add_new_relation s a b type description).1).operations = s.mem.operations ∧
      (DepsRelation.destroy (add_new_relation s a b type description).2.mem
        (add_new_relation s a b type description).1).relations = s.mem.relations) := by
  refine ⟨⟨?_, ?_, ?_, ?_⟩, ?_, ?_⟩
  · simp [outlinks_destroy m r rel hr, mem_set_erase]
  · simp [inlinks_destroy m r rel hr, mem_set_erase]
  · simp [destroy_relations m r rel hr]
  · intro x r' hne
    refine ⟨?_, ?_, ?_⟩
    · rw [outlinks_destroy m r rel hr]
      by_cases hx : x = rel.from_ <;> simp [hx, mem_set_erase, hne]
    · rw [inlinks_destroy m r rel hr]
      by_cases hx : x = rel.to_ <;> simp [hx, mem_set_erase, hne]
    · simp [destroy_relations m r rel hr, Function.update, hne]
  · have hfa : s.mem.next ∉ s.mem.outlinks a := by
      intro hmem
      have := hout _ hmem
      rw [hnew] at this
      exact absurd this (by simp)
    have hfb : s.mem.next ∉ s.mem.inlinks b := by
      intro hmem
      have := hin _ hmem
      rw [hnew] at this
      exact absurd this (by simp)
    have hlive : (add_new_relation s a b type description).2.mem.relations
        (add_new_relation s a b type description).1 = some ⟨a, b, type, description⟩ := by
      simp [add_new_relation, construct_relations]
    funext x
    rw [destroy_operations _ _ _ hlive]
    simp only [add_new_relation, construct_operations]
    cases hx : s.mem.operations x with
    | none => simp
    | some n =>
      have ea : x = a → set_erase s.mem.next (set_insert s.mem.next n.outlinks) = n.outlinks := by
        intro e
        apply set_erase_set_insert
        simpa [Memory.outlinks, ← e, hx] using hfa
      have eb : x = b → set_erase s.mem.next (set_insert s.mem.next n.inlinks) = n.inlinks := by
        intro e
        apply set_erase_set_insert
        simpa [Memory.inlinks, ← e, hx] using hfb
      have eo : (if x = a then set_erase s.mem.next
            (if x = a then set_insert s.mem.next n.outlinks else n.outlinks)
          else (if x = a then set_insert s.mem.next n.outlinks else n.outlinks))
            = n.outlinks := by
        split_ifs with h
        · exact ea h
        · rfl
      have ei : (if x = b then set_erase s.mem.next
            (if x = b then set_insert s.mem.next n.inlinks else n.inlinks)
          else (if x = b then set_insert s.mem.next n.inlinks else n.inlinks))
            = n.inlinks := by
        split_ifs with h
        · exact eb h
        · rfl
      simp only [Option.map_some', eo, ei]
  · have hlive : (add_new_relation s a b type description).2.mem.relations
        (add_new_relation s a b type description).1 = some ⟨a, b, type, description⟩ := by
      simp [add_new_relation, construct_relations]
    rw [destroy_relations _ _ _ hlive]
    simp only [add_new_relation, construct_relations]
    funext x
    by_cases hx : x = s.mem.next
    · subst hx
      simp [hnew]
    · simp [Function.update, hx]

theorem remove_relation_detaches_witness :
    (state_linked.mem.relations 3 = some ⟨1, 2, 0, "drives"⟩ ∧
      (∀ x ∈ state_linked.mem.outlinks 1, (state_linked.mem.relations x).isSome) ∧
      (∀ x ∈ state_linked.mem.inlinks 2, (state_linked.mem.relations x).isSome) ∧
      state_linked.mem.relations state_linked.mem.next = none) ∧
    ((3 ∉ (DepsRelation.destroy state_linked.mem 3).outlinks 1 ∧
      3 ∉ (DepsRelation.destroy state_linked.mem 3).inlinks 2 ∧
      (DepsRelation.destroy state_linked.mem 3).relations 3 = none ∧
      ∀ x r', r' ≠ 3 →
        (r' ∈ (DepsRelation.destroy state_linked.mem 3).outlinks x
          ↔ r' ∈ state_linked.mem.outlinks x) ∧
        (r' ∈ (DepsRelation.destroy state_linked.mem 3).inlinks x
          ↔ r' ∈ state_linked.mem.inlinks x) ∧
        (DepsRelation.destroy state_linked.mem 3).relations r' = state_linked.mem.relations r') ∧
    ((DepsRelation.destroy (add_new_relation state_linked 1 2 1 "again").2.mem
        (add_new_relation state_linked 1 2 1 "again").1).operations
          = state_linked.mem.operations ∧
      (DepsRelation.destroy (add_new_relation state_linked 1 2 1 "again").2.mem
        (add_new_relation state_linked 1 2 1 "again").1).relations
          = state_linked.mem.relations)) :=
  ⟨⟨by decide, by decide, by decide, by decide⟩,
    remove_relation_detaches state_linked.mem 3 ⟨1, 2, 0, "drives"⟩ state_linked 1 2 1 "again"
      (by decide) (by decide) (by decide) (by decide)⟩

/-! ## Entity map -/

theorem map_entries_of_find (k v : Addr) (m : IDNodeMap) (hu : map_unique_keys m)
    (h : map_find k m = some v) :
    m.filter (fun e => decide (e.1 = k)) = [(k, v)] := by
  induction m with
  | nil => simp [map_find] at h
  | cons e rest ih =>
    obtain ⟨k', w⟩ := e
    have hu' : k' ∉ rest.map Prod.fst ∧ map_unique_keys rest := by
      simpa [map_unique_keys] using hu
    by_cases hk : k' = k
    · subst hk
      have hv : w = v := by simpa [map_find] using h
      subst hv
      have hnone : ∀ e ∈ rest, ¬ (decide (e.1 = k') = true) := by
        intro e he hek
        have : e.1 = k' := by simpa using hek
        exact hu'.1 (this ▸ List.mem_map_of_mem Prod.fst he)
      simp [List.filter_cons, List.filter_eq_nil_iff.2 hnone]
    · have h2 : map_find k rest = some v := by simpa [map_find, hk] using h
      simp [List.filter_cons, hk, ih hu'.2 h2]

theorem map_entries_of_find_none (k : Addr) (m : IDNodeMap) (h : map_find k m = none) :
    m.filter (fun e => decide (e.1 = k)) = [] := by
  rw [List.filter_eq_nil_iff]
  intro e he hek
  have hk : e.1 = k := by simpa using hek
  exact (map_find_none_iff k m).1 h (hk ▸ List.mem_map_of_mem Prod.fst he)

theorem add_id_node_of_find (s : State) (id : Addr) (name : String) (e : Addr)
    (h : find_id_node s.graph id = some e) :
    add_id_node s id name = (e, s) := by
  unfold add_id_node
  simp only [h]

/-- C3: when `add_id_node(id, n1)` returns the node `e`, `find_id_node(id)`
returns `e`, and a later `add_id_node(id, n2)` returns `e` again and changes
nothing (also in any later state where the lookup of `id` still finds `e`);
the map, whose keys are unique, holds exactly the one entry `(id, e)` for `id`
after either call. -/
theorem add_id_node_idempotent (s : State) (id : Addr) (n1 n2 : String)
    (hu : map_unique_keys s.graph.id_hash) :
    find_id_node (add_id_node s id n1).2.graph id = some (add_id_node s id n1).1 ∧
    (add_id_node (add_id_node s id n1).2 id n2).1 = (add_id_node s id n1).1 ∧
    (add_id_node (add_id_node s id n1).2 id n2).2 = (add_id_node s id n1).2 ∧
    (∀ later : State, find_id_node later.graph id = some (add_id_node s id n1).1 →
      add_id_node later id n2 = ((add_id_node s id n1).1, later)) ∧
    (add_id_node s id n1).2.graph.id_hash.filter (fun e => decide (e.1 = id))
      = [(id, (add_id_node s id n1).1)] ∧
    (add_id_node (add_id_node s id n1).2 id n2).2.graph.id_hash.filter
        (fun e => decide (e.1 = id))
      = [(id, (add_id_node s id n1).1)] ∧
    map_unique_keys (add_id_node (add_id_node s id n1).2 id n2).2.graph.id_hash := by
  have hfind : find_id_node (add_id_node s id n1).2.graph id
      = some (add_id_node s id n1).1 := by
    unfold add_id_node
    cases h : find_id_node s.graph id with
    | some e => simpa using h
    | none => simp [find_id_node, map_find_assign_self]
  have hsame : add_id_node (add_id_node s id n1).2 id n2
      = ((add_id_node s id n1).1, (add_id_node s id n1).2) :=
    add_id_node_of_find _ _ _ _ hfind
  have hkeys : map_unique_keys (add_id_node s id n1).2.graph.id_hash := by
    unfold add_id_node
    cases h : find_id_node s.graph id with
    | some e => simpa using hu
    | none =>
      have hn : id ∉ s.graph.id_hash.map Prod.fst := (map_find_none_iff _ _).1 h
      simp only [map_assign_of_find_none _ _ _ h]
      unfold map_unique_keys
      rw [List.map_cons, List.nodup_cons]
      exact ⟨hn, hu⟩
  have hentries := map_entries_of_find id _ _ hkeys hfind
  refine ⟨hfind, ?_, ?_, ?_, hentries, ?_, ?_⟩
  · rw [hsame]
  · rw [hsame]
  · exact fun later hl => add_id_node_of_find later id n2 _ hl
  · rw [hsame]; exact hentries
  · rw [hsame]; exact hkeys

theorem add_id_node_idempotent_witness :
    map_unique_keys state_two_ops.graph.id_hash ∧
    (find_id_node (add_id_node state_two_ops 7 "OBCube").2.graph 7
      = some (add_id_node state_two_ops 7 "OBCube").1 ∧
    (add_id_node (add_id_node state_two_ops 7 "OBCube").2 7 "OBCube.001").1
      = (add_id_node state_two_ops 7 "OBCube").1 ∧
    (add_id_node (add_id_node state_two_ops 7 "OBCube").2 7 "OBCube.001").2
      = (add_id_node state_two_ops 7 "OBCube").2 ∧
    (∀ later : State,
      find_id_node later.graph 7 = some (add_id_node state_two_ops 7 "OBCube").1 →
      add_id_node later 7 "OBCube.001" = ((add_id_node state_two_ops 7 "OBCube").1, later)) ∧
    (add_id_node state_two_ops 7 "OBCube").2.graph.id_hash.filter (fun e => decide (e.1 = 7))
      = [(7, (add_id_node state_two_ops 7 "OBCube").1)] ∧
    (add_id_node (add_id_node state_two_ops 7 "OBCube").2 7 "OBCube.001").2.graph.id_hash.filter
        (fun e => decide (e.1 = 7))
      = [(7, (add_id_node state_two_ops 7 "OBCube").1)] ∧
    map_unique_keys
      (add_id_node (add_id_node state_two_ops 7 "OBCube").2 7 "OBCube.001").2.graph.id_hash) :=
  ⟨by decide, add_id_node_idempotent state_two_ops 7 "OBCube" "OBCube.001" (by decide)⟩

theorem map_erase_length (k : Addr) (m : IDNodeMap) (hu : map_unique_keys m)
    (h : (map_find k m).isSome) :
    (map_erase k m).length + 1 = m.length := by
  induction m with
  | nil => simp [map_find] at h
  | cons e rest ih =>
    obtain ⟨k', v⟩ := e
    have hu' : k' ∉ rest.map Prod.fst ∧ map_unique_keys rest := by
      simpa [map_unique_keys] using hu
    by_cases hk : k' = k
    · subst hk
      have hnone : map_find k' rest = none := (map_find_none_iff k' rest).2 hu'.1
      have h1 : map_erase k' ((k', v) :: rest) = map_erase k' rest := by
        simp [map_erase]
      rw [h1, map_erase_of_find_none k' rest hnone]
      rfl
    · have h1 : map_erase k ((k', v) :: rest) = (k', v) :: map_erase k rest := by
        simp [map_erase, hk]
      have h2 : (map_find k rest).isSome := by simpa [map_find, hk] using h
      rw [h1, List.length_cons, List.length_cons, ih hu'.2 h2]

/-- C4: when the graph holds a node for `id`, after `remove_id_node(id)` the
lookup of `id` finds nothing and the lookup of every other identity finds the
node it found before; the map, whose keys are unique, has exactly one entry
less. -/
theorem remove_id_node_erases (s : State) (id : Addr)
    (hu : map_unique_keys s.graph.id_hash)
    (h : (find_id_node s.graph id).isSome) :
    find_id_node (remove_id_node s id).graph id = none ∧
    (∀ j, j ≠ id → find_id_node (remove_id_node s id).graph j = find_id_node s.graph j) ∧
    (remove_id_node s id).graph.id_hash.length + 1 = s.graph.id_hash.length := by
  obtain ⟨e, he⟩ := Option.isSome_iff_exists.1 h
  have hlen := map_erase_length id s.graph.id_hash hu h
  unfold remove_id_node
  simp only [he]
  exact ⟨map_find_erase_self id _, fun j hj => map_find_erase_ne id j _ hj, hlen⟩

/-- C5: when `id` is not a key of the entity map, `remove_id_node(id)` returns
and leaves the whole state as it was: the entity map, the subgraph set, the
root node, the entry tags and the heap. -/
theorem remove_id_node_absent (s : State) (id : Addr)
    (h : id ∉ s.graph.id_hash.map Prod.fst) :
    remove_id_node s id = s := by
  have hn : find_id_node s.graph id = none := (map_find_none_iff _ _).2 h
  unfold remove_id_node
  simp only [hn]

theorem remove_id_node_erases_witness :
    (map_unique_keys scene.graph.id_hash ∧ (find_id_node scene.graph 100).isSome) ∧
    (find_id_node (remove_id_node scene 100).graph 100 = none ∧
      (∀ j, j ≠ 100 →
        find_id_node (remove_id_node scene 100).graph j = find_id_node scene.graph j) ∧
      (remove_id_node scene 100).graph.id_hash.length + 1 = scene.graph.id_hash.length) :=
  ⟨⟨by decide, by decide⟩, remove_id_node_erases scene 100 (by decide) (by decide)⟩

theorem remove_id_node_absent_witness :
    300 ∉ scene.graph.id_hash.map Prod.fst ∧ remove_id_node scene 300 = scene :=
  ⟨by decide, remove_id_node_absent scene 300 (by decide)⟩

/-! ## Removal of an entity and the relations of its operations -/

theorem foldl_preserves (P : Memory → Prop) (f : Memory → Addr → Memory)
    (hf : ∀ m x, P m → P (f m x)) (l : List Addr) (m : Memory) (h : P m) :
    P (l.foldl f m) := by
  induction l generalizing m with
  | nil => exact h
  | cons x rest ih => exact ih (f m x) (hf m x h)

theorem foldl_reaches (Pre Post : Memory → Prop) (f : Memory → Addr → Memory) (o : Addr)
    (hpre : ∀ m x, Pre m → Pre (f m x))
    (hpost : ∀ m x, Post m → Post (f m x))
    (hit : ∀ m, Pre m → Post (f m o))
    (l : List Addr) (ho : o ∈ l) (m : Memory) (h : Pre m) :
    Post (l.foldl f m) := by
  induction l generalizing m with
  | nil => simp at ho
  | cons x rest ih =>
    rw [List.foldl_cons]
    by_cases hx : x = o
    · subst hx
      exact foldl_preserves Post f hpost rest _ (hit m h)
    · have ho' : o ∈ rest := by
        rcases List.mem_cons.1 ho with e | e
        · exact absurd e.symm hx
        · exact e
      exact ih ho' (f m x) (hpre m x h)

theorem destroy_relations_apply (m : Memory) (r' r : Addr) :
    (DepsRelation.destroy m r').relations r = if r = r' then none else m.relations r := by
  cases h : m.relations r' with
  | none =>
    rw [destroy_of_dead m r' h]
    by_cases e : r = r'
    · subst e; simp [h]
    · simp [e]
  | some rel =>
    rw [destroy_relations m r' rel h]
    by_cases e : r = r'
    · subst e; simp
    · simp [Function.update, e]

theorem mem_outlinks_destroy (m : Memory) (r' r x : Addr)
    (h : r ∈ (DepsRelation.destroy m r').outlinks x) : r ∈ m.outlinks x ∧ r ≠ r' ∨
      (r ∈ m.outlinks x ∧ ∃ rel, m.relations r' = some rel ∧ x ≠ rel.from_) ∨
      (r ∈ m.outlinks x ∧ m.relations r' = none) := by
  cases hr : m.relations r' with
  | none =>
    rw [destroy_of_dead m r' hr] at h
    exact Or.inr (Or.inr ⟨h, rfl⟩)
  | some rel =>
    rw [outlinks_destroy m r' rel hr] at h
    by_cases hx : x = rel.from_
    · rw [if_pos hx, mem_set_erase] at h
      exact Or.inl h
    · rw [if_neg hx] at h
      exact Or.inr (Or.inl ⟨h, rel, rfl, hx⟩)

theorem mem_inlinks_destroy (m : Memory) (r' r x : Addr)
    (h : r ∈ (DepsRelation.destroy m r').inlinks x) : r ∈ m.inlinks x ∧ r ≠ r' ∨
      (r ∈ m.inlinks x ∧ ∃ rel, m.relations r' = some rel ∧ x ≠ rel.to_) ∨
      (r ∈ m.inlinks x ∧ m.relations r' = none) := by
  cases hr : m.relations r' with
  | none =>
    rw [destroy_of_dead m r' hr] at h
    exact Or.inr (Or.inr ⟨h, rfl⟩)
  | some rel =>
    rw [inlinks_destroy m r' rel hr] at h
    by_cases hx : x = rel.to_
    · rw [if_pos hx, mem_set_erase] at h
      exact Or.inl h
    · rw [if_neg hx] at h
      exact Or.inr (Or.inl ⟨h, rel, rfl, hx⟩)

theorem mem_links_destroy_of_ne (m : Memory) (r' r x : Addr) (hne : r ≠ r') :
    (r ∈ (DepsRelation.destroy m r').outlinks x ↔ r ∈ m.outlinks x) ∧
    (r ∈ (DepsRelation.destroy m r').inlinks x ↔ r ∈ m.inlinks x) := by
  cases hr : m.relations r' with
  | none => rw [destroy_of_dead m r' hr]; exact ⟨Iff.rfl, Iff.rfl⟩
  | some rel =>
    rw [outlinks_destroy m r' rel hr, inlinks_destroy m r' rel hr]
    constructor
    · by_cases hx : x = rel.from_ <;> simp [hx, mem_set_erase, hne]
    · by_cases hx : x = rel.to_ <;> simp [hx, mem_set_erase, hne]

/-- Deletion of a relation keeps the link sets valid. -/
theorem destroy_links_valid (m : Memory) (r' : Addr) (h : m.links_valid) :
    (DepsRelation.destroy m r').links_valid := by
  constructor
  · intro x r hr
    rcases mem_outlinks_destroy m r' r x hr with ⟨hm, hne⟩ | ⟨hm, rel', hrel', hx⟩ | ⟨hm, hd⟩
    · obtain ⟨rel, h1, h2⟩ := h.1 x r hm
      exact ⟨rel, by rw [destroy_relations_apply, if_neg hne]; exact h1, h2⟩
    · obtain ⟨rel, h1, h2⟩ := h.1 x r hm
      have hne : r ≠ r' := by
        intro e
        subst e
        rw [h1] at hrel'
        cases hrel'
        exact hx h2.symm
      exact ⟨rel, by rw [destroy_relations_apply, if_neg hne]; exact h1, h2⟩
    · obtain ⟨rel, h1, h2⟩ := h.1 x r hm
      have hne : r ≠ r' := by
        intro e
        subst e
        rw [h1] at hd
        cases hd
      exact ⟨rel, by rw [destroy_relations_apply, if_neg hne]; exact h1, h2⟩
  · intro x r hr
    rcases mem_inlinks_destroy m r' r x hr with ⟨hm, hne⟩ | ⟨hm, rel', hrel', hx⟩ | ⟨hm, hd⟩
    · obtain ⟨rel, h1, h2⟩ := h.2 x r hm
      exact ⟨rel, by rw [destroy_relations_apply, if_neg hne]; exact h1, h2⟩
    · obtain ⟨rel, h1, h2⟩ := h.2 x r hm
      have hne : r ≠ r' := by
        intro e
        subst e
        rw [h1] at hrel'
        cases hrel'
        exact hx h2.symm
      exact ⟨rel, by rw [destroy_relations_apply, if_neg hne]; exact h1, h2⟩
    · obtain ⟨rel, h1, h2⟩ := h.2 x r hm
      have hne : r ≠ r' := by
        intro e
        subst e
        rw [h1] at hd
        cases hd
      exact ⟨rel, by rw [destroy_relations_apply, if_neg hne]; exact h1, h2⟩

theorem destroy_keeps_dead (r : Addr) (m : Memory) (r' : Addr) (h : m.relations r = none) :
    (DepsRelation.destroy m r').relations r = none := by
  rw [destroy_relations_apply]
  split_ifs
  · rfl
  · exact h

theorem destroy_keeps_attached (r o : Addr) (m : Memory) (r' : Addr) (h : m.attached r o) :
    (DepsRelation.destroy m r').attached r o := by
  intro hlive
  by_cases hne : r = r'
  · rw [destroy_relations_apply, if_pos hne] at hlive
    exact absurd rfl hlive
  · rw [destroy_relations_apply, if_neg hne] at hlive
    have hm := mem_links_destroy_of_ne m r' r o hne
    rcases h hlive with h1 | h1
    · exact Or.inl (hm.1.2 h1)
    · exact Or.inr (hm.2.2 h1)

theorem destroy_all_kills (r : Addr) (l : List Addr) (hr : r ∈ l) (m : Memory) :
    (l.foldl DepsRelation.destroy m).relations r = none := by
  refine foldl_reaches (fun _ => True) (fun m => m.relations r = none)
    DepsRelation.destroy r (fun _ _ _ => trivial) (destroy_keeps_dead r) ?_ l hr m trivial
  intro m _
  rw [destroy_relations_apply, if_pos rfl]

/-- Shape of the heap after the destruction of a live operation node. -/
theorem operation_destroy_of_live (m : Memory) (x : Addr) (n : OperationDepsNode)
    (h : m.operations x = some n) :
    OperationDepsNode.destroy m x =
      { (n.inlinks ++ n.outlinks).foldl DepsRelation.destroy m with
        operations := Function.update
          ((n.inlinks ++ n.outlinks).foldl DepsRelation.destroy m).operations x none } := by
  unfold OperationDepsNode.destroy
  simp only [h]

theorem operation_destroy_of_dead (m : Memory) (x : Addr) (h : m.operations x = none) :
    OperationDepsNode.destroy m x = m := by
  unfold OperationDepsNode.destroy
  simp only [h]

theorem mem_outlinks_free (m : Memory) (x y r : Addr)
    (h : r ∈ Memory.outlinks { m with operations := Function.update m.operations x none } y) :
    r ∈ m.outlinks y ∧ y ≠ x := by
  unfold Memory.outlinks at h ⊢
  by_cases e : y = x
  · subst e; simp at h
  · simp only [Function.update, e, dite_false] at h
    exact ⟨h, e⟩

theorem mem_inlinks_free (m : Memory) (x y r : Addr)
    (h : r ∈ Memory.inlinks { m with operations := Function.update m.operations x none } y) :
    r ∈ m.inlinks y ∧ y ≠ x := by
  unfold Memory.inlinks at h ⊢
  by_cases e : y = x
  · subst e; simp at h
  · simp only [Function.update, e, dite_false] at h
    exact ⟨h, e⟩

theorem free_links_valid (m : Memory) (x : Addr) (h : m.links_valid) :
    Memory.links_valid { m with operations := Function.update m.operations x none } := by
  constructor
  · intro y r hr
    exact h.1 y r (mem_outlinks_free m x y r hr).1
  · intro y r hr
    exact h.2 y r (mem_inlinks_free m x y r hr).1

theorem operation_destroy_links_valid (m : Memory) (x : Addr) (h : m.links_valid) :
    (OperationDepsNode.destroy m x).links_valid := by
  cases hx : m.operations x with
  | none => rw [operation_destroy_of_dead m x hx]; exact h
  | some n =>
    rw [operation_destroy_of_live m x n hx]
    exact free_links_valid _ x (foldl_preserves _ _ destroy_links_valid _ m h)

theorem operation_destroy_keeps_dead (r : Addr) (m : Memory) (x : Addr)
    (h : m.relations r = none) :
    (OperationDepsNode.destroy m x).relations r = none := by
  cases hx : m.operations x with
  | none => rw [operation_destroy_of_dead m x hx]; exact h
  | some n =>
    rw [operation_destroy_of_live m x n hx]
    exact foldl_preserves (fun m => m.relations r = none) _ (destroy_keeps_dead r) _ m h

/-- Destruction of the node a live relation is attached to deletes the relation. -/
theorem operation_destroy_kills (r o : Addr) (m : Memory) (h : m.attached r o) :
    (OperationDepsNode.destroy m o).relations r = none := by
  by_cases hd : m.relations r = none
  · exact operation_destroy_keeps_dead r m o hd
  · cases ho : m.operations o with
    | none =>
      rcases h hd with h1 | h1
      · simp [Memory.outlinks, ho] at h1
      · simp [Memory.inlinks, ho] at h1
    | some n =>
      rw [operation_destroy_of_live m o n ho]
      have hmem : r ∈ n.inlinks ++ n.outlinks := by
        rcases h hd with h1 | h1
        · simp only [Memory.outlinks, ho] at h1
          exact List.mem_append_right _ h1
        · simp only [Memory.inlinks, ho] at h1
          exact List.mem_append_left _ h1
      exact destroy_all_kills r _ hmem m

theorem operation_destroy_keeps_attached (r o : Addr) (m : Memory) (x : Addr)
    (h : m.attached r o) :
    (OperationDepsNode.destroy m x).attached r o := by
  by_cases hxo : x = o
  · subst hxo
    intro hlive
    exact absurd (operation_destroy_kills r x m h) hlive
  · cases hx : m.operations x with
    | none => rw [operation_destroy_of_dead m x hx]; exact h
    | some n =>
      rw [operation_destroy_of_live m x n hx]
      have h1 : ((n.inlinks ++ n.outlinks).foldl DepsRelation.destroy m).attached r o :=
        foldl_preserves _ _ (destroy_keeps_attached r o) _ m h
      intro hlive
      have hox : o ≠ x := fun e => hxo e.symm
      rcases h1 hlive with h2 | h2
      · left
        simpa [Memory.outlinks, Function.update, hox] using h2
      · right
        simpa [Memory.inlinks, Function.update, hox] using h2

/-- Shape of the heap after the destruction of a live component node. -/
theorem component_destroy_of_live (m : Memory) (c : Addr) (comp : ComponentDepsNode)
    (h : m.components c = some comp) :
    ComponentDepsNode.destroy m c =
      { comp.operations.foldl OperationDepsNode.destroy m with
        components := Function.update
          (comp.operations.foldl OperationDepsNode.destroy m).components c none } := by
  unfold ComponentDepsNode.destroy
  simp only [h]

theorem component_destroy_of_dead (m : Memory) (c : Addr) (h : m.components c = none) :
    ComponentDepsNode.destroy m c = m := by
  unfold ComponentDepsNode.destroy
  simp only [h]

theorem destroy_components (m : Memory) (r : Addr) :
    (DepsRelation.destroy m r).components = m.components := by
  unfold DepsRelation.destroy
  cases m.relations r with
  | none => rfl
  | some rel =>
    simp only [Memory.modify_operation]
    cases m.operations rel.from_ <;> simp only [] <;> split <;> rfl

theorem operation_destroy_components (m : Memory) (x : Addr) :
    (OperationDepsNode.destroy m x).components = m.components := by
  cases hx : m.operations x with
  | none => rw [operation_destroy_of_dead m x hx]
  | some n =>
    rw [operation_destroy_of_live m x n hx]
    exact foldl_preserves (fun m' => m'.components = m.components) _
      (fun m' r h => (destroy_components m' r).trans h) _ m rfl

theorem component_destroy_links_valid (m : Memory) (c : Addr) (h : m.links_valid) :
    (ComponentDepsNode.destroy m c).links_valid := by
  cases hc : m.components c with
  | none => rw [component_destroy_of_dead m c hc]; exact h
  | some comp =>
    rw [component_destroy_of_live m c comp hc]
    exact foldl_preserves _ _ operation_destroy_links_valid _ m h

theorem component_destroy_keeps_dead (r : Addr) (m : Memory) (c : Addr)
    (h : m.relations r = none) :
    (ComponentDepsNode.destroy m c).relations r = none := by
  cases hc : m.components c with
  | none => rw [component_destroy_of_dead m c hc]; exact h
  | some comp =>
    rw [component_destroy_of_live m c comp hc]
    exact foldl_preserves (fun m => m.relations r = none) _
      (operation_destroy_keeps_dead r) _ m h

theorem component_destroy_keeps_attached (r o : Addr) (m : Memory) (c : Addr)
    (h : m.attached r o) :
    (ComponentDepsNode.destroy m c).attached r o := by
  cases hc : m.components c with
  | none => rw [component_destroy_of_dead m c hc]; exact h
  | some comp =>
    rw [component_destroy_of_live m c comp hc]
    exact foldl_preserves (fun m => m.attached r o) _
      (operation_destroy_keeps_attached r o) _ m h

/-- Destruction of a component deletes the relations attached to its operations. -/
theorem component_destroy_kills (r o c : Addr) (comp : ComponentDepsNode) (m : Memory)
    (hc : m.components c = some comp) (ho : o ∈ comp.operations) (h : m.attached r o) :
    (ComponentDepsNode.destroy m c).relations r = none := by
  rw [component_destroy_of_live m c comp hc]
  exact foldl_reaches (fun m => m.attached r o) (fun m => m.relations r = none)
    OperationDepsNode.destroy o (operation_destroy_keeps_attached r o)
    (operation_destroy_keeps_dead r) (operation_destroy_kills r o) _ ho m h

theorem component_destroy_components_other (m : Memory) (c' c : Addr) (h : c ≠ c') :
    (ComponentDepsNode.destroy m c').components c = m.components c := by
  cases hc : m.components c' with
  | none => rw [component_destroy_of_dead m c' hc]
  | some comp =>
    rw [component_destroy_of_live m c' comp hc]
    have h1 : (comp.operations.foldl OperationDepsNode.destroy m).components = m.components :=
      foldl_preserves (fun m' => m'.components = m.components) _
        (fun m' x h => (operation_destroy_components m' x).trans h) _ m rfl
    simp [Function.update, h, h1]

/-- Shape of the heap after the destruction of a live entity node. -/
theorem id_node_destroy_of_live (m : Memory) (e : Addr) (n : IDDepsNode)
    (h : m.id_nodes e = some n) :
    IDDepsNode.destroy m e =
      { (n.components.map Prod.snd).foldl ComponentDepsNode.destroy m with
        id_nodes := Function.update
          ((n.components.map Prod.snd).foldl ComponentDepsNode.destroy m).id_nodes e none } := by
  unfold IDDepsNode.destroy
  simp only [h]

theorem id_node_destroy_of_dead (m : Memory) (e : Addr) (h : m.id_nodes e = none) :
    IDDepsNode.destroy m e = m := by
  unfold IDDepsNode.destroy
  simp only [h]

theorem id_node_destroy_links_valid (m : Memory) (e : Addr) (h : m.links_valid) :
    (IDDepsNode.destroy m e).links_valid := by
  cases he : m.id_nodes e with
  | none => rw [id_node_destroy_of_dead m e he]; exact h
  | some n =>
    rw [id_node_destroy_of_live m e n he]
    exact foldl_preserves _ _ component_destroy_links_valid _ m h

/-- Destruction of an entity node deletes every relation attached to one of
its operations. -/
theorem id_node_destroy_kills (r o e : Addr) (m : Memory)
    (ho : o ∈ entity_operations m e) (h : m.attached r o) :
    (IDDepsNode.destroy m e).relations r = none := by
  unfold entity_operations at ho
  cases he : m.id_nodes e with
  | none => simp [he] at ho
  | some n =>
    simp only [he, List.mem_flatMap] at ho
    obtain ⟨c, hc, hoc⟩ := ho
    cases hcomp : m.components c with
    | none => simp [hcomp] at hoc
    | some comp =>
      simp only [hcomp] at hoc
      rw [id_node_destroy_of_live m e n he]
      refine foldl_reaches
        (fun m' => m'.relations r = none ∨ (m'.attached r o ∧ m'.components c = some comp))
        (fun m' => m'.relations r = none)
        ComponentDepsNode.destroy c ?_ (component_destroy_keeps_dead r) ?_ _ hc m
        (Or.inr ⟨h, hcomp⟩)
      · intro m' c' hpre
        rcases hpre with hd | ⟨ha, hcc⟩
        · exact Or.inl (component_destroy_keeps_dead r m' c' hd)
        · by_cases e' : c = c'
          · subst e'
            exact Or.inl (component_destroy_kills r o c comp m' hcc hoc ha)
          · exact Or.inr ⟨component_destroy_keeps_attached r o m' c' ha,
              by rw [component_destroy_components_other m' c' c e']; exact hcc⟩
      · intro m' hpre
        rcases hpre with hd | ⟨ha, hcc⟩
        · exact component_destroy_keeps_dead r m' c hd
        · exact component_destroy_kills r o c comp m' hcc hoc ha

/-- C6: in a heap with consistent adjacency, after `remove_id_node(id)` every
relation that had an operation of the entity as its `from` or `to` endpoint is
freed and is a member of no inlinks and no outlinks of any operation node. -/
theorem remove_id_node_drops_relations (s : State) (id e r : Addr) (rel : DepsRelation)
    (hc : s.mem.consistent) (hfind : find_id_node s.graph id = some e)
    (hr : s.mem.relations r = some rel)
    (htouch : rel.from_ ∈ entity_operations s.mem e ∨ rel.to_ ∈ entity_operations s.mem e) :
    (remove_id_node s id).mem.relations r = none ∧
    ∀ x, r ∉ (remove_id_node s id).mem.outlinks x ∧ r ∉ (remove_id_node s id).mem.inlinks x := by
  have hmem : (remove_id_node s id).mem = IDDepsNode.destroy s.mem e := by
    unfold remove_id_node
    simp only [hfind]
  have hvalid : (IDDepsNode.destroy s.mem e).links_valid :=
    id_node_destroy_links_valid s.mem e ⟨hc.out_from, hc.in_to⟩
  have hdead : (IDDepsNode.destroy s.mem e).relations r = none := by
    rcases htouch with ht | ht
    · exact id_node_destroy_kills r rel.from_ e s.mem ht (fun _ => Or.inl (hc.rel_out r rel hr))
    · exact id_node_destroy_kills r rel.to_ e s.mem ht (fun _ => Or.inr (hc.rel_in r rel hr))
  rw [hmem]
  refine ⟨hdead, fun x => ⟨?_, ?_⟩⟩
  · intro hx
    obtain ⟨rel', h1, _⟩ := hvalid.1 x r hx
    rw [hdead] at h1
    cases h1
  · intro hx
    obtain ⟨rel', h1, _⟩ := hvalid.2 x r hx
    rw [hdead] at h1
    cases h1

theorem scene_consistent : scene.mem.consistent := by
  constructor
  · intro x r h
    simp only [scene, scene_mem, Memory.outlinks] at h ⊢
    split_ifs at h <;> simp_all
  · intro x r h
    simp only [scene, scene_mem, Memory.inlinks] at h ⊢
    split_ifs at h <;> simp_all
  · intro r rel h
    simp only [scene, scene_mem, Memory.outlinks] at h ⊢
    split_ifs at h
    simp_all
    subst h
    simp
  · intro r rel h
    simp only [scene, scene_mem, Memory.inlinks] at h ⊢
    split_ifs at h
    simp_all
    subst h
    simp

theorem remove_id_node_drops_relations_witness :
    (scene.mem.consistent ∧ find_id_node scene.graph 100 = some 10 ∧
      scene.mem.relations 30 = some ⟨1, 3, 0, "P1a -> P2"⟩ ∧
      (1 ∈ entity_operations scene.mem 10 ∨ 3 ∈ entity_operations scene.mem 10)) ∧
    ((remove_id_node scene 100).mem.relations 30 = none ∧
      ∀ x, 30 ∉ (remove_id_node scene 100).mem.outlinks x ∧
        30 ∉ (remove_id_node scene 100).mem.inlinks x) :=
  ⟨⟨scene_consistent, by decide, by decide, by decide⟩,
    remove_id_node_drops_relations scene 100 10 30 ⟨1, 3, 0, "P1a -> P2"⟩
      scene_consistent (by decide) (by decide) (by decide)⟩

/-! ## Consistent adjacency is an invariant of the relation operations -/

theorem empty_consistent : Memory.empty.consistent := by
  constructor
  · intro x r h; simp [Memory.empty, Memory.outlinks] at h
  · intro x r h; simp [Memory.empty, Memory.inlinks] at h
  · intro r rel h; simp [Memory.empty] at h
  · intro r rel h; simp [Memory.empty] at h

/-- Deletion of a relation keeps adjacency consistent. -/
theorem destroy_consistent (m : Memory) (r' : Addr) (h : m.consistent) :
    (DepsRelation.destroy m r').consistent := by
  have hv := destroy_links_valid m r' ⟨h.out_from, h.in_to⟩
  refine ⟨hv.1, hv.2, ?_, ?_⟩
  · intro r rel hr
    rw [destroy_relations_apply] at hr
    by_cases hne : r = r'
    · rw [if_pos hne] at hr; cases hr
    · rw [if_neg hne] at hr
      exact (mem_links_destroy_of_ne m r' r rel.from_ hne).1.2 (h.rel_out r rel hr)
  · intro r rel hr
    rw [destroy_relations_apply] at hr
    by_cases hne : r = r'
    · rw [if_pos hne] at hr; cases hr
    · rw [if_neg hne] at hr
      exact (mem_links_destroy_of_ne m r' r rel.to_ hne).2.2 (h.rel_in r rel hr)

theorem outlinks_construct (m : Memory) (r a b : Addr) (ty : Nat) (d : String) (x : Addr)
    (n : OperationDepsNode) (hx : m.operations x = some n) :
    (DepsRelation.construct m r a b ty d).outlinks x
      = if x = a then set_insert r (m.outlinks x) else m.outlinks x := by
  unfold Memory.outlinks
  rw [construct_operations, hx]
  simp

theorem inlinks_construct (m : Memory) (r a b : Addr) (ty : Nat) (d : String) (x : Addr)
    (n : OperationDepsNode) (hx : m.operations x = some n) :
    (DepsRelation.construct m r a b ty d).inlinks x
      = if x = b then set_insert r (m.inlinks x) else m.inlinks x := by
  unfold Memory.inlinks
  rw [construct_operations, hx]
  simp

theorem links_construct_of_dead (m : Memory) (r a b : Addr) (ty : Nat) (d : String) (x : Addr)
    (hx : m.operations x = none) :
    (DepsRelation.construct m r a b ty d).outlinks x = [] ∧
    (DepsRelation.construct m r a b ty d).inlinks x = [] := by
  unfold Memory.outlinks Memory.inlinks
  rw [construct_operations, hx]
  simp

/-- Creation of a relation between live operation nodes, at an address not in
use, keeps adjacency consistent. -/
theorem add_new_relation_consistent (s : State) (a b : Addr) (type : Nat)
    (description : String) (h : s.mem.consistent)
    (ha : (s.mem.operations a).isSome) (hb : (s.mem.operations b).isSome)
    (hnew : s.mem.relations s.mem.next = none) :
    (add_new_relation s a b type description).2.mem.consistent := by
  obtain ⟨na, hna⟩ := Option.isSome_iff_exists.1 ha
  obtain ⟨nb, hnb⟩ := Option.isSome_iff_exists.1 hb
  have hrel : ∀ r rel, s.mem.relations r = some rel →
      (add_new_relation s a b type description).2.mem.relations r = some rel := by
    intro r rel hr
    have hne : r ≠ s.mem.next := by
      intro e
      rw [e, hnew] at hr
      cases hr
    simp [add_new_relation, construct_relations, Function.update, hne, hr]
  have hself : (add_new_relation s a b type description).2.mem.relations s.mem.next
      = some ⟨a, b, type, description⟩ := by
    simp [add_new_relation, construct_relations]
  have hout : ∀ x r, r ∈ (add_new_relation s a b type description).2.mem.outlinks x ↔
      (r = s.mem.next ∧ x = a) ∨ r ∈ s.mem.outlinks x := by
    intro x r
    cases hx : s.mem.operations x with
    | none =>
      have hxa : x ≠ a := by
        intro e
        rw [e, hna] at hx
        cases hx
      have h1 := (links_construct_of_dead { s.mem with next := s.mem.next + 1 }
        s.mem.next a b type description x hx).1
      have h2 : s.mem.outlinks x = [] := by simp [Memory.outlinks, hx]
      simp only [add_new_relation]
      rw [h1, h2]
      simp [hxa]
    | some n =>
      have h1 := outlinks_construct { s.mem with next := s.mem.next + 1 }
        s.mem.next a b type description x n hx
      simp only [add_new_relation]
      rw [h1]
      by_cases hxa : x = a
      · rw [if_pos hxa, mem_set_insert]
        simp [hxa, Memory.outlinks]
      · rw [if_neg hxa]
        simp [hxa, Memory.outlinks]
  have hin : ∀ x r, r ∈ (add_new_relation s a b type description).2.mem.inlinks x ↔
      (r = s.mem.next ∧ x = b) ∨ r ∈ s.mem.inlinks x := by
    intro x r
    cases hx : s.mem.operations x with
    | none =>
      have hxb : x ≠ b := by
        intro e
        rw [e, hnb] at hx
        cases hx
      have h1 := (links_construct_of_dead { s.mem with next := s.mem.next + 1 }
        s.mem.next a b type description x hx).2
      have h2 : s.mem.inlinks x = [] := by simp [Memory.inlinks, hx]
      simp only [add_new_relation]
      rw [h1, h2]
      simp [hxb]
    | some n =>
      have h1 := inlinks_construct { s.mem with next := s.mem.next + 1 }
        s.mem.next a b type description x n hx
      simp only [add_new_relation]
      rw [h1]
      by_cases hxb : x = b
      · rw [if_pos hxb, mem_set_insert]
        simp [hxb, Memory.inlinks]
      · rw [if_neg hxb]
        simp [hxb, Memory.inlinks]
  constructor
  · intro x r hr
    rcases (hout x r).1 hr with ⟨e1, e2⟩ | hold
    · exact ⟨_, e1 ▸ hself, e2.symm⟩
    · obtain ⟨rel, h1, h2⟩ := h.out_from x r hold
      exact ⟨rel, hrel r rel h1, h2⟩
  · intro x r hr
    rcases (hin x r).1 hr with ⟨e1, e2⟩ | hold
    · exact ⟨_, e1 ▸ hself, e2.symm⟩
    · obtain ⟨rel, h1, h2⟩ := h.in_to x r hold
      exact ⟨rel, hrel r rel h1, h2⟩
  · intro r rel hr
    by_cases e : r = s.mem.next
    · subst e
      rw [hself] at hr
      cases hr
      exact (hout a s.mem.next).2 (Or.inl ⟨rfl, rfl⟩)
    · have hr' : s.mem.relations r = some rel := by
        simpa [add_new_relation, construct_relations, Function.update, e] using hr
      exact (hout rel.from_ r).2 (Or.inr (h.rel_out r rel hr'))
  · intro r rel hr
    by_cases e : r = s.mem.next
    · subst e
      rw [hself] at hr
      cases hr
      exact (hin b s.mem.next).2 (Or.inl ⟨rfl, rfl⟩)
    · have hr' : s.mem.relations r = some rel := by
        simpa [add_new_relation, construct_relations, Function.update, e] using hr
      exact (hin rel.to_ r).2 (Or.inr (h.rel_in r rel hr'))

/-! ## The sort stage -/

/-- C8: in the example scene with `P1a` tagged, `P1a` is in the entry tag set
and `P2` is reachable from it along the relation `P1a -> P2`, yet the order
that `sort` records holds neither: it is empty. -/
theorem sort_omits_reachable :
    scene_tagged.graph.entry_tags = [1] ∧
    reachable scene_tagged.mem scene_tagged.graph.entry_tags 1 ∧
    reachable scene_tagged.mem scene_tagged.graph.entry_tags 3 ∧
    1 ∉ (sort scene_tagged).order ∧ 3 ∉ (sort scene_tagged).order ∧
    (sort scene_tagged).order = [] :=
  ⟨by decide,
    ⟨1, by decide, Relation.ReflTransGen.refl⟩,
    ⟨1, by decide, Relation.ReflTransGen.single
      ⟨30, by decide, ⟨1, 3, 0, "P1a -> P2"⟩, by decide, rfl⟩⟩,
    by decide, by decide, rfl⟩

/-- C9: on the cycle `A -> B`, `B -> C`, `C -> A` with entry tag set `{A}`,
`sort` returns, but the order it records is empty, so it is no permutation of
`A, B, C`, and it records no broken-cycle diagnostic instead of one. -/
theorem sort_cycle_records_nothing :
    cycle_tagged.graph.entry_tags = [1] ∧
    (cycle_tagged.mem.outlinks 1 = [4] ∧ cycle_tagged.mem.outlinks 2 = [5] ∧
      cycle_tagged.mem.outlinks 3 = [6]) ∧
    (cycle_tagged.mem.relations 4 = some ⟨1, 2, 0, "A -> B"⟩ ∧
      cycle_tagged.mem.relations 5 = some ⟨2, 3, 0, "B -> C"⟩ ∧
      cycle_tagged.mem.relations 6 = some ⟨3, 1, 0, "C -> A"⟩) ∧
    (sort cycle_tagged).order = [] ∧
    ¬ List.Perm (sort cycle_tagged).order [1, 2, 3] ∧
    (sort cycle_tagged).diagnostics.length = 0 ∧
    (sort cycle_tagged).diagnostics.length ≠ 1 :=
  ⟨by decide, ⟨by decide, by decide, by decide⟩, ⟨by decide, by decide, by decide⟩, rfl,
    by decide, rfl, by decide⟩

/-- C10: in the example scene with `P1a` tagged, the entry tag set still holds
`P1a` after `sort` has run; it is not empty. -/
theorem entry_tags_survive_sort :
    (sort scene_tagged).state.graph.entry_tags = [1] ∧
    (sort scene_tagged).state.graph.entry_tags ≠ [] :=
  ⟨by decide, by decide⟩

/-! ## Entry tags -/

theorem set_insert_idem (x : Addr) (l : List Addr) :
    set_insert x (set_insert x l) = set_insert x l := by
  have h : x ∈ set_insert x l := (mem_set_insert x x l).2 (Or.inl rfl)
  generalize set_insert x l = l' at h ⊢
  simp [set_insert, h]

/-- C11, as stated, fails: in the example scene the operation `P1a` is not
dirty, and after `add_entry_tag(P1a)` it is a member of the entry tags but its
dirty flag is still clear. -/
theorem add_entry_tag_leaves_dirty_clear :
    (scene.mem.operations 1).map OperationDepsNode.dirty = some false ∧
    1 ∈ (add_entry_tag scene (some 1)).graph.entry_tags ∧
    ((add_entry_tag scene (some 1)).mem.operations 1).map OperationDepsNode.dirty
      = some false :=
  ⟨by decide, by decide, by decide⟩

/-- C11, amended: after `add_entry_tag(op)` with a non-null `op`, the node is a
member of the entry tag set; no heap object is written, so the dirty flag of
`op` is what it was, and the other members of the graph are unchanged. -/
theorem add_entry_tag_inserts (s : State) (op : Addr) :
    op ∈ (add_entry_tag s (some op)).graph.entry_tags ∧
    (add_entry_tag s (some op)).mem = s.mem ∧
    ((add_entry_tag s (some op)).mem.operations op).map OperationDepsNode.dirty
      = (s.mem.operations op).map OperationDepsNode.dirty ∧
    (add_entry_tag s (some op)).graph.id_hash = s.graph.id_hash ∧
    (add_entry_tag s (some op)).graph.subgraphs = s.graph.subgraphs ∧
    (add_entry_tag s (some op)).graph.root_node = s.graph.root_node :=
  ⟨(mem_set_insert op op _).2 (Or.inl rfl), rfl, rfl, rfl, rfl, rfl⟩

/-- C12: tagging a node twice yields the same state as tagging it once, so the
same entry tag set; this holds for the null pointer too. -/
theorem add_entry_tag_idempotent (s : State) (node : Option Addr) :
    add_entry_tag (add_entry_tag s node) node = add_entry_tag s node ∧
    (add_entry_tag (add_entry_tag s node) node).graph.entry_tags
      = (add_entry_tag s node).graph.entry_tags := by
  have h : add_entry_tag (add_entry_tag s node) node = add_entry_tag s node := by
    cases node with
    | none => rfl
    | some n =>
      simp only [add_entry_tag, set_insert_idem]
  exact ⟨h, by rw [h]⟩

/-! ## Resolution of RNA pointers -/

/-- C13: for a pointer whose struct type is an ID type, without property,
`find_node_from_pointer` returns what `find_id_node` returns for the entity the
pointer names: the entity node when the entity is registered, and never a
component node. -/
theorem find_node_whole_entity (rna : RNA) (s : State) (ptr : PointerRNA) (t : Addr)
    (ht : ptr.type = some t) (hid : rna.RNA_struct_is_ID t = true) :
    find_node_from_pointer rna s ptr none
      = (find_id_node s.graph ptr.data).map DepsNodeRef.id_ref ∧
    (∀ e, find_id_node s.graph ptr.data = some e →
      find_node_from_pointer rna s ptr none = some (DepsNodeRef.id_ref e)) ∧
    (∀ c, find_node_from_pointer rna s ptr none ≠ some (DepsNodeRef.component c)) := by
  have h : find_node_from_pointer rna s ptr none
      = (find_id_node s.graph ptr.data).map DepsNodeRef.id_ref := by
    simp [find_node_from_pointer, pointer_to_id_node_criteria, ht, hid]
  refine ⟨h, ?_, ?_⟩
  · intro e he
    rw [h, he]
    rfl
  · intro c hc
    rw [h] at hc
    cases hf : find_id_node s.graph ptr.data with
    | none => rw [hf] at hc; cases hc
    | some e => rw [hf] at hc; cases hc

theorem find_node_whole_entity_witness :
    ((⟨100, some 1002, 100⟩ : PointerRNA).type = some 1002 ∧
      rna_example.RNA_struct_is_ID 1002 = true) ∧
    (find_node_from_pointer rna_example scene_full ⟨100, some 1002, 100⟩ none
      = (find_id_node scene_full.graph 100).map DepsNodeRef.id_ref ∧
    (∀ e, find_id_node scene_full.graph 100 = some e →
      find_node_from_pointer rna_example scene_full ⟨100, some 1002, 100⟩ none
        = some (DepsNodeRef.id_ref e)) ∧
    (∀ c, find_node_from_pointer rna_example scene_full ⟨100, some 1002, 100⟩ none
      ≠ some (DepsNodeRef.component c))) :=
  ⟨⟨rfl, by decide⟩,
    find_node_whole_entity rna_example scene_full ⟨100, some 1002, 100⟩ 1002 rfl (by decide)⟩

theorem id_criteria_fails (rna : RNA) (ptr : PointerRNA) (prop : Option Addr) (t : Addr)
    (ht : ptr.type = some t) (h : rna.RNA_struct_is_ID t = false ∨ prop.isSome) :
    pointer_to_id_node_criteria rna ptr prop = none := by
  unfold pointer_to_id_node_criteria
  rw [ht]
  rcases h with h | h
  · simp [h]
  · cases prop with
    | none => simp at h
    | some p => simp

theorem find_node_of_component_criteria (rna : RNA) (s : State) (ptr : PointerRNA)
    (prop : Option Addr) (id : Addr) (type : eDepsNode_Type) (name : String)
    (h1 : pointer_to_id_node_criteria rna ptr prop = none)
    (h2 : pointer_to_component_node_criteria rna ptr prop = some (id, type, name)) :
    find_node_from_pointer rna s ptr prop =
      match find_id_node s.graph id with
      | some id_node =>
        match s.mem.id_nodes id_node with
        | some n => (n.find_component type name).map DepsNodeRef.component
        | none => none
      | none => none := by
  unfold find_node_from_pointer
  rw [h1, h2]

/-- C14: for a pointer to a pose bone, and for a pointer to a sequencer strip,
with or without a property, whose owning entity is registered (pose bones and
strips are not ID structs, and a strip type is neither `RNA_PoseBone` nor
`RNA_Object`), `find_node_from_pointer` returns the component that the entity
node finds for the kind Bone, respectively Sequencer, and the name of the bone,
respectively of the strip. -/
theorem find_node_bone_or_strip (rna : RNA) (s : State) (ptr : PointerRNA)
    (prop : Option Addr) (t e : Addr) (node : IDDepsNode)
    (ht : ptr.type = some t)
    (hnid : rna.RNA_struct_is_ID t = false ∨ prop.isSome)
    (hreg : find_id_node s.graph ptr.id_data = some e)
    (hnode : s.mem.id_nodes e = some node) :
    (t = rna.RNA_PoseBone →
      find_node_from_pointer rna s ptr prop
        = (node.find_component eDepsNode_Type.DEPSNODE_TYPE_BONE
            (rna.pchan_name ptr.data)).map DepsNodeRef.component) ∧
    (t ≠ rna.RNA_PoseBone → t ≠ rna.RNA_Object →
      rna.RNA_struct_is_a t rna.RNA_Sequence = true →
      find_node_from_pointer rna s ptr prop
        = (node.find_component eDepsNode_Type.DEPSNODE_TYPE_SEQUENCER
            (rna.seq_name ptr.data)).map DepsNodeRef.component) := by
  have h1 := id_criteria_fails rna ptr prop t ht hnid
  constructor
  · intro hb
    have h2 : pointer_to_component_node_criteria rna ptr prop
        = some (ptr.id_data, eDepsNode_Type.DEPSNODE_TYPE_BONE, rna.pchan_name ptr.data) := by
      simp [pointer_to_component_node_criteria, ht, hb]
    rw [find_node_of_component_criteria rna s ptr prop _ _ _ h1 h2, hreg]
    simp only [hnode]
  · intro hb ho hs
    have h2 : pointer_to_component_node_criteria rna ptr prop
        = some (ptr.id_data, eDepsNode_Type.DEPSNODE_TYPE_SEQUENCER, rna.seq_name ptr.data) := by
      simp [pointer_to_component_node_criteria, ht, hb, ho, hs]
    rw [find_node_of_component_criteria rna s ptr prop _ _ _ h1 h2, hreg]
    simp only [hnode]

theorem find_node_bone_or_strip_witness :
    (((⟨200, some 1001, 500⟩ : PointerRNA).type = some 1001 ∧
      (rna_example.RNA_struct_is_ID 1001 = false ∨ (none : Option Addr).isSome) ∧
      find_id_node scene_full.graph 200 = some 11 ∧
      scene_full.mem.id_nodes 11
        = some ⟨200, "E2", [((.DEPSNODE_TYPE_BONE, "spine"), 21)]⟩ ∧
      1001 = rna_example.RNA_PoseBone) ∧
     find_node_from_pointer rna_example scene_full ⟨200, some 1001, 500⟩ none
        = (IDDepsNode.find_component ⟨200, "E2", [((.DEPSNODE_TYPE_BONE, "spine"), 21)]⟩
            eDepsNode_Type.DEPSNODE_TYPE_BONE "spine").map DepsNodeRef.component) ∧
    (((⟨300, some 1005, 600⟩ : PointerRNA).type = some 1005 ∧
      (rna_example.RNA_struct_is_ID 1005 = false ∨ (some 9 : Option Addr).isSome) ∧
      find_id_node scene_full.graph 300 = some 12 ∧
      scene_full.mem.id_nodes 12
        = some ⟨300, "E3", [((.DEPSNODE_TYPE_SEQUENCER, "SQclip"), 22)]⟩ ∧
      1005 ≠ rna_example.RNA_PoseBone ∧ 1005 ≠ rna_example.RNA_Object ∧
      rna_example.RNA_struct_is_a 1005 rna_example.RNA_Sequence = true) ∧
     find_node_from_pointer rna_example scene_full ⟨300, some 1005, 600⟩ (some 9)
        = (IDDepsNode.find_component ⟨300, "E3", [((.DEPSNODE_TYPE_SEQUENCER, "SQclip"), 22)]⟩
            eDepsNode_Type.DEPSNODE_TYPE_SEQUENCER "SQclip").map DepsNodeRef.component) :=
  ⟨⟨⟨rfl, Or.inl (by decide), by decide, by decide, rfl⟩,
     (find_node_bone_or_strip rna_example scene_full ⟨200, some 1001, 500⟩ none 1001 11
        ⟨200, "E2", [((.DEPSNODE_TYPE_BONE, "spine"), 21)]⟩
        rfl (Or.inl (by decide)) (by decide) (by decide)).1 rfl⟩,
   ⟨⟨rfl, Or.inl (by decide), by decide, by decide, by decide, by decide, by decide⟩,
     (find_node_bone_or_strip rna_example scene_full ⟨300, some 1005, 600⟩ (some 9) 1005 12
        ⟨300, "E3", [((.DEPSNODE_TYPE_SEQUENCER, "SQclip"), 22)]⟩
        rfl (Or.inl (by decide)) (by decide) (by decide)).2
        (by decide) (by decide) (by decide)⟩⟩

/-- Property of a struct that is typed, is no pose bone, no `RNA_Object` and no
strip: the pointer resolves to the Parameters component of the owning entity,
looked up with the empty subdata name. -/
theorem find_node_parameters (rna : RNA) (s : State) (ptr : PointerRNA)
    (p t e : Addr) (node : IDDepsNode)
    (ht : ptr.type = some t) (hb : t ≠ rna.RNA_PoseBone) (ho : t ≠ rna.RNA_Object)
    (hs : rna.RNA_struct_is_a t rna.RNA_Sequence = false)
    (hreg : find_id_node s.graph ptr.id_data = some e)
    (hnode : s.mem.id_nodes e = some node) :
    find_node_from_pointer rna s ptr (some p)
      = (node.find_component eDepsNode_Type.DEPSNODE_TYPE_PARAMETERS "").map
          DepsNodeRef.component := by
  have h1 := id_criteria_fails rna ptr (some p) t ht (Or.inr rfl)
  have h2 : pointer_to_component_node_criteria rna ptr (some p)
      = some (ptr.id_data, eDepsNode_Type.DEPSNODE_TYPE_PARAMETERS, "") := by
    simp [pointer_to_component_node_criteria, ht, hb, ho, hs]
  rw [find_node_of_component_criteria rna s ptr (some p) _ _ _ h1 h2, hreg]
  simp only [hnode]

/-- C15: in the example scene the entity `E1` is registered and owns a
Parameters component with the empty subdata name (20); for a pointer of type
`RNA_Object` into `E1` with a property, the component criteria return `false`
and `find_node_from_pointer` returns no node, while the same pointer with the
plain type `RNA_Modifier` resolves to the component. -/
theorem find_node_object_property_unresolved :
    find_id_node scene_full.graph 100 = some 10 ∧
    (scene_full.mem.id_nodes 10).bind
        (fun n => n.find_component eDepsNode_Type.DEPSNODE_TYPE_PARAMETERS "") = some 20 ∧
    pointer_to_component_node_criteria rna_example
        ⟨100, some rna_example.RNA_Object, 100⟩ (some 9) = none ∧
    find_node_from_pointer rna_example scene_full
        ⟨100, some rna_example.RNA_Object, 100⟩ (some 9) = none ∧
    find_node_from_pointer rna_example scene_full ⟨100, some 1006, 700⟩ (some 9)
      = some (DepsNodeRef.component 20) :=
  ⟨by decide, by decide, by decide, by decide, by decide⟩

/-- C16: `find_node_from_pointer` returns no node (i) for a pointer without
struct type, (ii) for a pointer without property whose type is no ID type, no
pose bone and no strip, and (iii) for a pointer that the component criteria
accept while the owning entity is not registered. -/
theorem find_node_unresolved (rna : RNA) (s : State) (ptr : PointerRNA)
    (prop : Option Addr)
    (h : ptr.type = none ∨
      (prop = none ∧ ∃ t, ptr.type = some t ∧ rna.RNA_struct_is_ID t = false ∧
        t ≠ rna.RNA_PoseBone ∧ rna.RNA_struct_is_a t rna.RNA_Sequence = false) ∨
      (pointer_to_id_node_criteria rna ptr prop = none ∧
        (pointer_to_component_node_criteria rna ptr prop).isSome ∧
        find_id_node s.graph ptr.id_data = none)) :
    find_node_from_pointer rna s ptr prop = none := by
  rcases h with h | ⟨hp, t, ht, hid, hb, hs⟩ | ⟨h1, h2, h3⟩
  · simp [find_node_from_pointer, pointer_to_id_node_criteria,
      pointer_to_component_node_criteria, h]
  · subst hp
    by_cases ho : t = rna.RNA_Object
    · subst ho
      simp [find_node_from_pointer, pointer_to_id_node_criteria,
        pointer_to_component_node_criteria, ht, hid, hb]
    · simp [find_node_from_pointer, pointer_to_id_node_criteria,
        pointer_to_component_node_criteria, ht, hid, hb, hs, ho]
  · obtain ⟨⟨id, type, name⟩, hc⟩ := Option.isSome_iff_exists.1 h2
    have hid : id = ptr.id_data := by
      unfold pointer_to_component_node_criteria at hc
      cases ht : ptr.type with
      | none => simp [ht] at hc
      | some t =>
        simp only [ht] at hc
        split_ifs at hc <;> simp at hc <;> exact hc.1.symm
    rw [find_node_of_component_criteria rna s ptr prop _ _ _ h1 hc, hid, h3]

theorem find_node_unresolved_witness :
    ((⟨100, none, 100⟩ : PointerRNA).type = none ∧
      find_node_from_pointer rna_example scene_full ⟨100, none, 100⟩ (some 9) = none) ∧
    (((none : Option Addr) = none ∧ ∃ t, (⟨100, some 1006, 700⟩ : PointerRNA).type = some t ∧
        rna_example.RNA_struct_is_ID t = false ∧ t ≠ rna_example.RNA_PoseBone ∧
        rna_example.RNA_struct_is_a t rna_example.RNA_Sequence = false) ∧
      find_node_from_pointer rna_example scene_full ⟨100, some 1006, 700⟩ none = none) ∧
    ((pointer_to_id_node_criteria rna_example ⟨900, some 1001, 500⟩ none = none ∧
        (pointer_to_component_node_criteria rna_example ⟨900, some 1001, 500⟩ none).isSome ∧
        find_id_node scene_full.graph 900 = none) ∧
      find_node_from_pointer rna_example scene_full ⟨900, some 1001, 500⟩ none = none) :=
  ⟨⟨rfl, find_node_unresolved rna_example scene_full ⟨100, none, 100⟩ (some 9) (Or.inl rfl)⟩,
   ⟨⟨rfl, 1006, rfl, by decide, by decide, by decide⟩,
     find_node_unresolved rna_example scene_full ⟨100, some 1006, 700⟩ none
       (Or.inr (Or.inl ⟨rfl, 1006, rfl, by decide, by decide, by decide⟩))⟩,
   ⟨⟨by decide, by decide, by decide⟩,
     find_node_unresolved rna_example scene_full ⟨900, some 1001, 500⟩ none
       (Or.inr (Or.inr ⟨by decide, by decide, by decide⟩))⟩⟩

/-! ## Insertion of relations: no cycle check, no merging -/

theorem relations_add_new_relation (s : State) (a b : Addr) (type : Nat)
    (description : String) (r : Addr) :
    (add_new_relation s a b type description).2.mem.relations r
      = if r = s.mem.next then some ⟨a, b, type, description⟩ else s.mem.relations r := by
  simp only [add_new_relation, construct_relations, Function.update]
  by_cases h : r = s.mem.next
  · subst h; simp
  · simp [h]

theorem mem_outlinks_add_new_relation (s : State) (a b : Addr) (type : Nat)
    (description : String) (ha : (s.mem.operations a).isSome) (x r : Addr) :
    r ∈ (add_new_relation s a b type description).2.mem.outlinks x ↔
      (r = s.mem.next ∧ x = a) ∨ r ∈ s.mem.outlinks x := by
  obtain ⟨na, hna⟩ := Option.isSome_iff_exists.1 ha
  cases hx : s.mem.operations x with
  | none =>
    have hxa : x ≠ a := by
      intro e
      rw [e, hna] at hx
      cases hx
    have h1 := (links_construct_of_dead { s.mem with next := s.mem.next + 1 }
      s.mem.next a b type description x hx).1
    have h2 : s.mem.outlinks x = [] := by simp [Memory.outlinks, hx]
    simp only [add_new_relation]
    rw [h1, h2]
    simp [hxa]
  | some n =>
    have h1 := outlinks_construct { s.mem with next := s.mem.next + 1 }
      s.mem.next a b type description x n hx
    simp only [add_new_relation]
    rw [h1]
    by_cases hxa : x = a
    · rw [if_pos hxa, mem_set_insert]
      simp [hxa, Memory.outlinks]
    · rw [if_neg hxa]
      simp [hxa, Memory.outlinks]

theorem mem_inlinks_add_new_relation (s : State) (a b : Addr) (type : Nat)
    (description : String) (hb : (s.mem.operations b).isSome) (x r : Addr) :
    r ∈ (add_new_relation s a b type description).2.mem.inlinks x ↔
      (r = s.mem.next ∧ x = b) ∨ r ∈ s.mem.inlinks x := by
  obtain ⟨nb, hnb⟩ := Option.isSome_iff_exists.1 hb
  cases hx : s.mem.operations x with
  | none =>
    have hxb : x ≠ b := by
      intro e
      rw [e, hnb] at hx
      cases hx
    have h1 := (links_construct_of_dead { s.mem with next := s.mem.next + 1 }
      s.mem.next a b type description x hx).2
    have h2 : s.mem.inlinks x = [] := by simp [Memory.inlinks, hx]
    simp only [add_new_relation]
    rw [h1, h2]
    simp [hxb]
  | some n =>
    have h1 := inlinks_construct { s.mem with next := s.mem.next + 1 }
      s.mem.next a b type description x n hx
    simp only [add_new_relation]
    rw [h1]
    by_cases hxb : x = b
    · rw [if_pos hxb, mem_set_insert]
      simp [hxb, Memory.inlinks]
    · rw [if_neg hxb]
      simp [hxb, Memory.inlinks]

/-- Steps along outlinks survive the creation of a relation at an address not
in use. -/
theorem edge_add_new_relation (s : State) (a b : Addr) (type : Nat) (description : String)
    (ha : (s.mem.operations a).isSome) (hnew : s.mem.relations s.mem.next = none)
    (x y : Addr) (h : edge s.mem x y) :
    edge (add_new_relation s a b type description).2.mem x y := by
  obtain ⟨r, hr, rel, hrel, hto⟩ := h
  have hne : r ≠ s.mem.next := by
    intro e
    rw [e, hnew] at hrel
    cases hrel
  refine ⟨r, (mem_outlinks_add_new_relation s a b type description ha x r).2 (Or.inr hr),
    rel, ?_, hto⟩
  rw [relations_add_new_relation, if_neg hne]
  exact hrel

/-- C17: for every pair of operation nodes `add_new_relation` returns a
relation from `from` to `to` that is registered in `from->outlinks` and in
`to->inlinks`, whatever relations exist already: for `from = to` the result is
a self loop, and when `from` was reachable from `to` the new relation closes a
cycle through `from`. -/
theorem add_new_relation_never_refuses (s : State) (a b : Addr) (type : Nat)
    (description : String)
    (ha : (s.mem.operations a).isSome) (hb : (s.mem.operations b).isSome)
    (hnew : s.mem.relations s.mem.next = none) :
    (add_new_relation s a b type description).2.mem.relations
        (add_new_relation s a b type description).1
      = some { from_ := a, to_ := b, type := type, name := description } ∧
    (add_new_relation s a b type description).1
      ∈ (add_new_relation s a b type description).2.mem.outlinks a ∧
    (add_new_relation s a b type description).1
      ∈ (add_new_relation s a b type description).2.mem.inlinks b ∧
    edge (add_new_relation s a b type description).2.mem a b ∧
    (a = b → edge (add_new_relation s a b type description).2.mem a a) ∧
    (Relation.ReflTransGen (edge s.mem) b a →
      Relation.TransGen (edge (add_new_relation s a b type description).2.mem) a a) := by
  have h1 : (add_new_relation s a b type description).2.mem.relations
      (add_new_relation s a b type description).1
        = some { from_ := a, to_ := b, type := type, name := description } := by
    rw [relations_add_new_relation]
    simp [add_new_relation]
  have h2 : (add_new_relation s a b type description).1
      ∈ (add_new_relation s a b type description).2.mem.outlinks a :=
    (mem_outlinks_add_new_relation s a b type description ha a _).2 (Or.inl ⟨rfl, rfl⟩)
  have h3 : (add_new_relation s a b type description).1
      ∈ (add_new_relation s a b type description).2.mem.inlinks b :=
    (mem_inlinks_add_new_relation s a b type description hb b _).2 (Or.inl ⟨rfl, rfl⟩)
  have h4 : edge (add_new_relation s a b type description).2.mem a b :=
    ⟨_, h2, _, h1, rfl⟩
  refine ⟨h1, h2, h3, h4, ?_, ?_⟩
  · intro e
    subst e
    exact h4
  · intro hpath
    exact Relation.TransGen.head' h4
      (Relation.ReflTransGen.mono
        (fun x y hxy => edge_add_new_relation s a b type description ha hnew x y hxy) hpath)

theorem add_new_relation_never_refuses_witness :
    ((state_chain.mem.operations 3).isSome ∧ (state_chain.mem.operations 1).isSome ∧
      state_chain.mem.relations state_chain.mem.next = none ∧
      Relation.ReflTransGen (edge state_chain.mem) 1 3) ∧
    ((add_new_relation state_chain 3 1 0 "C -> A").2.mem.relations
        (add_new_relation state_chain 3 1 0 "C -> A").1
      = some { from_ := 3, to_ := 1, type := 0, name := "C -> A" } ∧
    (add_new_relation state_chain 3 1 0 "C -> A").1
      ∈ (add_new_relation state_chain 3 1 0 "C -> A").2.mem.outlinks 3 ∧
    (add_new_relation state_chain 3 1 0 "C -> A").1
      ∈ (add_new_relation state_chain 3 1 0 "C -> A").2.mem.inlinks 1 ∧
    edge (add_new_relation state_chain 3 1 0 "C -> A").2.mem 3 1 ∧
    ((3 : Addr) = 1 → edge (add_new_relation state_chain 3 1 0 "C -> A").2.mem 3 3) ∧
    (Relation.ReflTransGen (edge state_chain.mem) 1 3 →
      Relation.TransGen (edge (add_new_relation state_chain 3 1 0 "C -> A").2.mem) 3 3)) :=
  ⟨⟨by decide, by decide, by decide,
      Relation.ReflTransGen.head
        (⟨4, by decide, ⟨1, 2, 0, "A -> B"⟩, by decide, rfl⟩ : edge state_chain.mem 1 2)
        (Relation.ReflTransGen.single
          (⟨5, by decide, ⟨2, 3, 0, "B -> C"⟩, by decide, rfl⟩ : edge state_chain.mem 2 3))⟩,
    add_new_relation_never_refuses state_chain 3 1 0 "C -> A"
      (by decide) (by decide) (by decide)⟩

theorem add_new_relation_next (s : State) (a b : Addr) (type : Nat) (description : String) :
    (add_new_relation s a b type description).1 = s.mem.next ∧
    (add_new_relation s a b type description).2.mem.next = s.mem.next + 1 := by
  constructor
  · rfl
  · simp only [add_new_relation, DepsRelation.construct, Memory.modify_operation]
    split <;> split <;> rfl

theorem add_new_relation_keeps_live (s : State) (a b : Addr) (type : Nat)
    (description : String) (x : Addr) (hx : (s.mem.operations x).isSome) :
    ((add_new_relation s a b type description).2.mem.operations x).isSome := by
  simp only [add_new_relation, construct_operations]
  obtain ⟨n, hn⟩ := Option.isSome_iff_exists.1 hx
  simp [hn]

theorem outlinks_add_new_relation_source (s : State) (a b : Addr) (type : Nat)
    (description : String) (ha : (s.mem.operations a).isSome) :
    (add_new_relation s a b type description).2.mem.outlinks a
      = set_insert s.mem.next (s.mem.outlinks a) := by
  obtain ⟨na, hna⟩ := Option.isSome_iff_exists.1 ha
  have h := outlinks_construct { s.mem with next := s.mem.next + 1 } s.mem.next a b type
    description a na hna
  rw [if_pos rfl] at h
  exact h

theorem inlinks_add_new_relation_target (s : State) (a b : Addr) (type : Nat)
    (description : String) (hb : (s.mem.operations b).isSome) :
    (add_new_relation s a b type description).2.mem.inlinks b
      = set_insert s.mem.next (s.mem.inlinks b) := by
  obtain ⟨nb, hnb⟩ := Option.isSome_iff_exists.1 hb
  have h := inlinks_construct { s.mem with next := s.mem.next + 1 } s.mem.next a b type
    description b nb hnb
  rw [if_pos rfl] at h
  exact h

theorem length_set_insert_of_not_mem (x : Addr) (l : List Addr) (h : x ∉ l) :
    (set_insert x l).length = l.length + 1 := by
  simp [set_insert, h]

/-- C18, as stated, fails: on two operation nodes without relations the first
`add_new_relation(1, 2, 0, "drives")` leaves the relation 3 in the outlinks of
the source and in the inlinks of the target, and the same call again adds a
second relation, 4, to both sets. -/
theorem add_new_relation_twice_example :
    (add_new_relation state_two_ops 1 2 0 "drives").2.mem.outlinks 1 = [3] ∧
    (add_new_relation state_two_ops 1 2 0 "drives").2.mem.inlinks 2 = [3] ∧
    (add_new_relation (add_new_relation state_two_ops 1 2 0 "drives").2
        1 2 0 "drives").2.mem.outlinks 1 = [4, 3] ∧
    (add_new_relation (add_new_relation state_two_ops 1 2 0 "drives").2
        1 2 0 "drives").2.mem.inlinks 2 = [4, 3] ∧
    (add_new_relation (add_new_relation state_two_ops 1 2 0 "drives").2
        1 2 0 "drives").2.mem.outlinks 1
      ≠ (add_new_relation state_two_ops 1 2 0 "drives").2.mem.outlinks 1 ∧
    (add_new_relation (add_new_relation state_two_ops 1 2 0 "drives").2
        1 2 0 "drives").2.mem.inlinks 2
      ≠ (add_new_relation state_two_ops 1 2 0 "drives").2.mem.inlinks 2 :=
  ⟨by decide, by decide, by decide, by decide, by decide, by decide⟩

/-- C18, amended: a second `add_new_relation(a, b, type, description)` creates
a second relation object with the same members at a new address: it is a
member of neither link set after the first call and a member of both after the
second, next to the first relation. The members of `a.outlinks` and of
`b.inlinks` after the second call are the new relation and the members after
the first call, and each set holds one more member than after the first call
(when the link sets hold no dangling pointer and the allocator hands out
addresses not in use). -/
theorem add_new_relation_twice (s : State) (a b : Addr) (type : Nat) (description : String)
    (ha : (s.mem.operations a).isSome) (hb : (s.mem.operations b).isSome)
    (hout : ∀ x ∈ s.mem.outlinks a, (s.mem.relations x).isSome)
    (hin : ∀ x ∈ s.mem.inlinks b, (s.mem.relations x).isSome)
    (hfree : ∀ p, s.mem.next ≤ p → s.mem.relations p = none) :
    (add_new_relation (add_new_relation s a b type description).2 a b type description).1
      ≠ (add_new_relation s a b type description).1 ∧
    (add_new_relation (add_new_relation s a b type description).2 a b type description).1
      ∉ (add_new_relation s a b type description).2.mem.outlinks a ∧
    (add_new_relation (add_new_relation s a b type description).2 a b type description).1
      ∉ (add_new_relation s a b type description).2.mem.inlinks b ∧
    (add_new_relation (add_new_relation s a b type description).2 a b type description).1
      ∈ (add_new_relation (add_new_relation s a b type description).2
          a b type description).2.mem.outlinks a ∧
    (add_new_relation (add_new_relation s a b type description).2 a b type description).1
      ∈ (add_new_relation (add_new_relation s a b type description).2
          a b type description).2.mem.inlinks b ∧
    (add_new_relation s a b type description).1
      ∈ (add_new_relation (add_new_relation s a b type description).2
          a b type description).2.mem.outlinks a ∧
    (add_new_relation s a b type description).1
      ∈ (add_new_relation (add_new_relation s a b type description).2
          a b type description).2.mem.inlinks b ∧
    (add_new_relation (add_new_relation s a b type description).2
        a b type description).2.mem.relations
        (add_new_relation (add_new_relation s a b type description).2 a b type description).1
      = some { from_ := a, to_ := b, type := type, name := description } ∧
    (add_new_relation (add_new_relation s a b type description).2
        a b type description).2.mem.relations (add_new_relation s a b type description).1
      = some { from_ := a, to_ := b, type := type, name := description } ∧
    (∀ r, r ∈ (add_new_relation (add_new_relation s a b type description).2
          a b type description).2.mem.outlinks a ↔
      r = (add_new_relation (add_new_relation s a b type description).2
          a b type description).1 ∨
      r ∈ (add_new_relation s a b type description).2.mem.outlinks a) ∧
    (∀ r, r ∈ (add_new_relation (add_new_relation s a b type description).2
          a b type description).2.mem.inlinks b ↔
      r = (add_new_relation (add_new_relation s a b type description).2
          a b type description).1 ∨
      r ∈ (add_new_relation s a b type description).2.mem.inlinks b) ∧
    ((add_new_relation (add_new_relation s a b type description).2
        a b type description).2.mem.outlinks a).length
      = ((add_new_relation s a b type description).2.mem.outlinks a).length + 1 ∧
    ((add_new_relation (add_new_relation s a b type description).2
        a b type description).2.mem.inlinks b).length
      = ((add_new_relation s a b type description).2.mem.inlinks b).length + 1 := by
  have hn := add_new_relation_next s a b type description
  have hn2 := add_new_relation_next (add_new_relation s a b type description).2
    a b type description
  have ha1 := add_new_relation_keeps_live s a b type description a ha
  have hb1 := add_new_relation_keeps_live s a b type description b hb
  have hr2 : (add_new_relation (add_new_relation s a b type description).2
      a b type description).1 = s.mem.next + 1 := by rw [hn2.1, hn.2]
  have hr1 : (add_new_relation s a b type description).1 = s.mem.next := hn.1
  have hdead : s.mem.relations (s.mem.next + 1) = none := hfree _ (Nat.le_succ _)
  have hfa : s.mem.next + 1 ∉ s.mem.outlinks a := by
    intro hmem
    have := hout _ hmem
    rw [hdead] at this
    exact absurd this (by simp)
  have hfb : s.mem.next + 1 ∉ s.mem.inlinks b := by
    intro hmem
    have := hin _ hmem
    rw [hdead] at this
    exact absurd this (by simp)
  have hna : s.mem.next + 1 ∉ (add_new_relation s a b type description).2.mem.outlinks a := by
    rw [mem_outlinks_add_new_relation s a b type description ha]
    rintro (⟨h, _⟩ | h)
    · exact Nat.succ_ne_self _ h
    · exact hfa h
  have hnb : s.mem.next + 1 ∉ (add_new_relation s a b type description).2.mem.inlinks b := by
    rw [mem_inlinks_add_new_relation s a b type description hb]
    rintro (⟨h, _⟩ | h)
    · exact Nat.succ_ne_self _ h
    · exact hfb h
  rw [hr2, hr1]
  refine ⟨Nat.succ_ne_self _, hna, hnb, ?_, ?_, ?_, ?_, ?_, ?_, ?_, ?_, ?_, ?_⟩
  · rw [mem_outlinks_add_new_relation _ a b type description ha1]
    exact Or.inl ⟨hn.2.symm, rfl⟩
  · rw [mem_inlinks_add_new_relation _ a b type description hb1]
    exact Or.inl ⟨hn.2.symm, rfl⟩
  · rw [mem_outlinks_add_new_relation _ a b type description ha1,
      mem_outlinks_add_new_relation s a b type description ha]
    exact Or.inr (Or.inl ⟨rfl, rfl⟩)
  · rw [mem_inlinks_add_new_relation _ a b type description hb1,
      mem_inlinks_add_new_relation s a b type description hb]
    exact Or.inr (Or.inl ⟨rfl, rfl⟩)
  · rw [relations_add_new_relation, if_pos hn.2.symm]
  · rw [relations_add_new_relation, hn.2, if_neg (Nat.succ_ne_self _).symm,
      relations_add_new_relation, if_pos rfl]
  · intro r
    rw [outlinks_add_new_relation_source _ a b type description ha1, mem_set_insert, hn.2]
  · intro r
    rw [inlinks_add_new_relation_target _ a b type description hb1, mem_set_insert, hn.2]
  · rw [outlinks_add_new_relation_source _ a b type description ha1, hn.2]
    exact length_set_insert_of_not_mem _ _ hna
  · rw [inlinks_add_new_relation_target _ a b type description hb1, hn.2]
    exact length_set_insert_of_not_mem _ _ hnb

theorem state_linked_next_free (p : Addr) (hp : state_linked.mem.next ≤ p) :
    state_linked.mem.relations p = none := by
  have h4 : state_linked.mem.next = 4 := by decide
  rw [h4] at hp
  have hne : p ≠ state_two_ops.mem.next := by
    have h3 : state_two_ops.mem.next = 3 := rfl
    rw [h3]
    intro e
    rw [e] at hp
    exact absurd hp (by decide)
  unfold state_linked
  rw [relations_add_new_relation, if_neg hne]
  rfl

theorem add_new_relation_twice_witness :
    ((state_linked.mem.operations 1).isSome ∧ (state_linked.mem.operations 2).isSome ∧
      (∀ x ∈ state_linked.mem.outlinks 1, (state_linked.mem.relations x).isSome) ∧
      (∀ x ∈ state_linked.mem.inlinks 2, (state_linked.mem.relations x).isSome) ∧
      (∀ p, state_linked.mem.next ≤ p → state_linked.mem.relations p = none)) ∧
    ((add_new_relation (add_new_relation state_linked 1 2 0 "drives").2 1 2 0 "drives").1
      ≠ (add_new_relation state_linked 1 2 0 "drives").1 ∧
    (add_new_relation (add_new_relation state_linked 1 2 0 "drives").2 1 2 0 "drives").1
      ∉ (add_new_relation state_linked 1 2 0 "drives").2.mem.outlinks 1 ∧
    (add_new_relation (add_new_relation state_linked 1 2 0 "drives").2 1 2 0 "drives").1
      ∉ (add_new_relation state_linked 1 2 0 "drives").2.mem.inlinks 2 ∧
    (add_new_relation (add_new_relation state_linked 1 2 0 "drives").2 1 2 0 "drives").1
      ∈ (add_new_relation (add_new_relation state_linked 1 2 0 "drives").2
          1 2 0 "drives").2.mem.outlinks 1 ∧
    (add_new_relation (add_new_relation state_linked 1 2 0 "drives").2 1 2 0 "drives").1
      ∈ (add_new_relation (add_new_relation state_linked 1 2 0 "drives").2
          1 2 0 "drives").2.mem.inlinks 2 ∧
    (add_new_relation state_linked 1 2 0 "drives").1
      ∈ (add_new_relation (add_new_relation state_linked 1 2 0 "drives").2
          1 2 0 "drives").2.mem.outlinks 1 ∧
    (add_new_relation state_linked 1 2 0 "drives").1
      ∈ (add_new_relation (add_new_relation state_linked 1 2 0 "drives").2
          1 2 0 "drives").2.mem.inlinks 2 ∧
    (add_new_relation (add_new_relation state_linked 1 2 0 "drives").2
        1 2 0 "drives").2.mem.relations
        (add_new_relation (add_new_relation state_linked 1 2 0 "drives").2 1 2 0 "drives").1
      = some { from_ := 1, to_ := 2, type := 0, name := "drives" } ∧
    (add_new_relation (add_new_relation state_linked 1 2 0 "drives").2
        1 2 0 "drives").2.mem.relations (add_new_relation state_linked 1 2 0 "drives").1
      = some { from_ := 1, to_ := 2, type := 0, name := "drives" } ∧
    (∀ r, r ∈ (add_new_relation (add_new_relation state_linked 1 2 0 "drives").2
          1 2 0 "drives").2.mem.outlinks 1 ↔
      r = (add_new_relation (add_new_relation state_linked 1 2 0 "drives").2
          1 2 0 "drives").1 ∨
      r ∈ (add_new_relation state_linked 1 2 0 "drives").2.mem.outlinks 1) ∧
    (∀ r, r ∈ (add_new_relation (add_new_relation state_linked 1 2 0 "drives").2
          1 2 0 "drives").2.mem.inlinks 2 ↔
      r = (add_new_relation (add_new_relation state_linked 1 2 0 "drives").2
          1 2 0 "drives").1 ∨
      r ∈ (add_new_relation state_linked 1 2 0 "drives").2.mem.inlinks 2) ∧
    ((add_new_relation (add_new_relation state_linked 1 2 0 "drives").2
        1 2 0 "drives").2.mem.outlinks 1).length
      = ((add_new_relation state_linked 1 2 0 "drives").2.mem.outlinks 1).length + 1 ∧
    ((add_new_relation (add_new_relation state_linked 1 2 0 "drives").2
        1 2 0 "drives").2.mem.inlinks 2).length
      = ((add_new_relation state_linked 1 2 0 "drives").2.mem.inlinks 2).length + 1) :=
  ⟨⟨by decide, by decide, by decide, by decide, state_linked_next_free⟩,
    add_new_relation_twice state_linked 1 2 0 "drives" (by decide) (by decide)
      (by decide) (by decide) state_linked_next_free⟩

/-! ## Teardown -/

theorem destroy_tables (m : Memory) (r : Addr) :
    (DepsRelation.destroy m r).id_nodes = m.id_nodes ∧
    (DepsRelation.destroy m r).subgraph_nodes = m.subgraph_nodes ∧
    (DepsRelation.destroy m r).root_nodes = m.root_nodes := by
  unfold DepsRelation.destroy
  cases m.relations r with
  | none => exact ⟨rfl, rfl, rfl⟩
  | some rel =>
    simp only [Memory.modify_operation]
    cases m.operations rel.from_ <;> simp only [] <;> split <;> exact ⟨rfl, rfl, rfl⟩

theorem operation_destroy_tables (m : Memory) (x : Addr) :
    (OperationDepsNode.destroy m x).id_nodes = m.id_nodes ∧
    (OperationDepsNode.destroy m x).subgraph_nodes = m.subgraph_nodes ∧
    (OperationDepsNode.destroy m x).root_nodes = m.root_nodes := by
  cases hx : m.operations x with
  | none => rw [operation_destroy_of_dead m x hx]; exact ⟨rfl, rfl, rfl⟩
  | some n =>
    rw [operation_destroy_of_live m x n hx]
    exact foldl_preserves
      (fun m' => m'.id_nodes = m.id_nodes ∧ m'.subgraph_nodes = m.subgraph_nodes ∧
        m'.root_nodes = m.root_nodes) _
      (fun m' r h => ⟨(destroy_tables m' r).1.trans h.1, (destroy_tables m' r).2.1.trans h.2.1,
        (destroy_tables m' r).2.2.trans h.2.2⟩) _ m ⟨rfl, rfl, rfl⟩

theorem component_destroy_tables (m : Memory) (c : Addr) :
    (ComponentDepsNode.destroy m c).id_nodes = m.id_nodes ∧
    (ComponentDepsNode.destroy m c).subgraph_nodes = m.subgraph_nodes ∧
    (ComponentDepsNode.destroy m c).root_nodes = m.root_nodes := by
  cases hc : m.components c with
  | none => rw [component_destroy_of_dead m c hc]; exact ⟨rfl, rfl, rfl⟩
  | some comp =>
    rw [component_destroy_of_live m c comp hc]
    exact foldl_preserves
      (fun m' => m'.id_nodes = m.id_nodes ∧ m'.subgraph_nodes = m.subgraph_nodes ∧
        m'.root_nodes = m.root_nodes) _
      (fun m' x h => ⟨(operation_destroy_tables m' x).1.trans h.1,
        (operation_destroy_tables m' x).2.1.trans h.2.1,
        (operation_destroy_tables m' x).2.2.trans h.2.2⟩) _ m ⟨rfl, rfl, rfl⟩

/-- Deletion of an entity node frees the node, frees no other entity node and
writes neither the subgraph nodes nor the root nodes. -/
theorem id_node_destroy_tables (m : Memory) (e : Addr) :
    (IDDepsNode.destroy m e).id_nodes e = none ∧
    (∀ x, m.id_nodes x = none → (IDDepsNode.destroy m e).id_nodes x = none) ∧
    (IDDepsNode.destroy m e).subgraph_nodes = m.subgraph_nodes ∧
    (IDDepsNode.destroy m e).root_nodes = m.root_nodes := by
  cases he : m.id_nodes e with
  | none =>
    rw [id_node_destroy_of_dead m e he]
    exact ⟨he, fun x hx => hx, rfl, rfl⟩
  | some n =>
    rw [id_node_destroy_of_live m e n he]
    have h := foldl_preserves
      (fun m' => m'.id_nodes = m.id_nodes ∧ m'.subgraph_nodes = m.subgraph_nodes ∧
        m'.root_nodes = m.root_nodes) _
      (fun m' c h => ⟨(component_destroy_tables m' c).1.trans h.1,
        (component_destroy_tables m' c).2.1.trans h.2.1,
        (component_destroy_tables m' c).2.2.trans h.2.2⟩)
      (n.components.map Prod.snd) m ⟨rfl, rfl, rfl⟩
    refine ⟨by simp, ?_, h.2.1, h.2.2⟩
    intro x hx
    by_cases hxe : x = e
    · subst hxe; simp
    · simp only [Function.update, hxe, dite_false]
      rw [h.1]
      exact hx

theorem clear_id_nodes_mem (s : State) :
    (∀ e ∈ s.graph.id_hash.map Prod.snd, (clear_id_nodes s).1.mem.id_nodes e = none) ∧
    (∀ x, s.mem.id_nodes x = none → (clear_id_nodes s).1.mem.id_nodes x = none) ∧
    (clear_id_nodes s).1.mem.subgraph_nodes = s.mem.subgraph_nodes ∧
    (clear_id_nodes s).1.mem.root_nodes = s.mem.root_nodes := by
  refine ⟨?_, ?_, ?_, ?_⟩
  · intro e he
    exact foldl_reaches (fun _ => True) (fun m => m.id_nodes e = none) IDDepsNode.destroy e
      (fun _ _ _ => trivial) (fun m x h => (id_node_destroy_tables m x).2.1 e h)
      (fun m _ => (id_node_destroy_tables m e).1) _ he s.mem trivial
  · intro x hx
    exact foldl_preserves (fun m => m.id_nodes x = none) IDDepsNode.destroy
      (fun m e h => (id_node_destroy_tables m e).2.1 x h) _ s.mem hx
  · exact foldl_preserves (fun m => m.subgraph_nodes = s.mem.subgraph_nodes)
      IDDepsNode.destroy (fun m e h => (id_node_destroy_tables m e).2.2.1.trans h) _ s.mem rfl
  · exact foldl_preserves (fun m => m.root_nodes = s.mem.root_nodes)
      IDDepsNode.destroy (fun m e h => (id_node_destroy_tables m e).2.2.2.trans h) _ s.mem rfl

theorem subgraph_destroy_tables (m : Memory) (g : Addr) :
    (SubgraphDepsNode.destroy m g).subgraph_nodes g = none ∧
    (∀ x, m.subgraph_nodes x = none → (SubgraphDepsNode.destroy m g).subgraph_nodes x = none) ∧
    (SubgraphDepsNode.destroy m g).id_nodes = m.id_nodes ∧
    (SubgraphDepsNode.destroy m g).root_nodes = m.root_nodes := by
  refine ⟨by simp [SubgraphDepsNode.destroy], ?_, rfl, rfl⟩
  intro x hx
  by_cases hxg : x = g
  · subst hxg; simp [SubgraphDepsNode.destroy]
  · simp [SubgraphDepsNode.destroy, Function.update, hxg, hx]

theorem clear_subgraph_nodes_mem (s : State) :
    (∀ g ∈ s.graph.subgraphs, (clear_subgraph_nodes s).1.mem.subgraph_nodes g = none) ∧
    (clear_subgraph_nodes s).1.mem.id_nodes = s.mem.id_nodes ∧
    (clear_subgraph_nodes s).1.mem.root_nodes = s.mem.root_nodes := by
  refine ⟨?_, ?_, ?_⟩
  · intro g hg
    exact foldl_reaches (fun _ => True) (fun m => m.subgraph_nodes g = none)
      SubgraphDepsNode.destroy g (fun _ _ _ => trivial)
      (fun m x h => (subgraph_destroy_tables m x).2.1 g h)
      (fun m _ => (subgraph_destroy_tables m g).1) _ hg s.mem trivial
  · exact foldl_preserves (fun m => m.id_nodes = s.mem.id_nodes)
      SubgraphDepsNode.destroy (fun m g h => (subgraph_destroy_tables m g).2.2.1.trans h)
      _ s.mem rfl
  · exact foldl_preserves (fun m => m.root_nodes = s.mem.root_nodes)
      SubgraphDepsNode.destroy (fun m g h => (subgraph_destroy_tables m g).2.2.2.trans h)
      _ s.mem rfl

/-- C19: for a graph reached by any sequence of `add_id_node` and
`remove_id_node` calls from any state, after `clear_id_nodes()`, and after the
teardown `DEG_graph_free`, the entity map is empty and `find_id_node` returns
nothing for every identity, the added ones included; the entity nodes that
were registered are freed. -/
theorem teardown_empties_entity_map (s : State) (calls : List EntityCall) (id : Addr) :
    (clear_id_nodes (run_calls s calls)).1.graph.id_hash = [] ∧
    find_id_node (clear_id_nodes (run_calls s calls)).1.graph id = none ∧
    (DEG_graph_free (run_calls s calls)).1.graph.id_hash = [] ∧
    find_id_node (DEG_graph_free (run_calls s calls)).1.graph id = none ∧
    (∀ e, find_id_node (run_calls s calls).graph id = some e →
      find_id_node (clear_id_nodes (run_calls s calls)).1.graph id ≠ some e) ∧
    (∀ e ∈ (run_calls s calls).graph.id_hash.map Prod.snd,
      (clear_id_nodes (run_calls s calls)).1.mem.id_nodes e = none) := by
  refine ⟨rfl, rfl, rfl, rfl, ?_, (clear_id_nodes_mem (run_calls s calls)).1⟩
  intro e _ h
  cases h

/-- C20, as stated, fails: in the example scene with a root node (50), three
entity nodes (10, 11, 12) and a subgraph node (40) the teardown deletes the
root node first, not last, and the member `root_node` still holds its address
afterwards. -/
theorem teardown_deletes_root_first :
    (DEG_graph_free scene_full).2
      = [DepsNodeRef.root 50, DepsNodeRef.id_ref 10, DepsNodeRef.id_ref 11,
         DepsNodeRef.id_ref 12, DepsNodeRef.subgraph 40] ∧
    (DEG_graph_free scene_full).2.head? = some (DepsNodeRef.root 50) ∧
    (DEG_graph_free scene_full).2.getLast? ≠ some (DepsNodeRef.root 50) ∧
    (DEG_graph_free scene_full).1.graph.root_node = some 50 :=
  ⟨by decide, by decide, by decide, by decide⟩

/-- C20, amended: the teardown deletes the root node first (when there is
one), then every entity node of the map, then every subgraph node of the set;
afterwards the entity map and the subgraph set are empty, every one of these
nodes is freed, and the member `root_node` is left as it was. -/
theorem teardown_order (s : State) :
    (DEG_graph_free s).2
      = (match s.graph.root_node with
          | some r => [DepsNodeRef.root r]
          | none => [])
        ++ s.graph.id_hash.map (fun e => DepsNodeRef.id_ref e.2)
        ++ s.graph.subgraphs.map DepsNodeRef.subgraph ∧
    (DEG_graph_free s).1.graph.id_hash = [] ∧
    (DEG_graph_free s).1.graph.subgraphs = [] ∧
    (DEG_graph_free s).1.graph.root_node = s.graph.root_node ∧
    (∀ r, s.graph.root_node = some r → (DEG_graph_free s).1.mem.root_nodes r = none) ∧
    (∀ e ∈ s.graph.id_hash.map Prod.snd, (DEG_graph_free s).1.mem.id_nodes e = none) ∧
    (∀ g ∈ s.graph.subgraphs, (DEG_graph_free s).1.mem.subgraph_nodes g = none) := by
  cases hr : s.graph.root_node with
  | none =>
    have hs : DEG_graph_free s
        = ((clear_subgraph_nodes (clear_id_nodes s).1).1,
            [] ++ (clear_id_nodes s).2 ++ (clear_subgraph_nodes (clear_id_nodes s).1).2) := by
      simp only [DEG_graph_free, hr]
    rw [hs]
    refine ⟨rfl, rfl, rfl, hr, ?_, ?_, ?_⟩
    · intro r h; cases h
    · intro e he
      have h1 := (clear_id_nodes_mem s).1 e he
      have h2 := (clear_subgraph_nodes_mem (clear_id_nodes s).1).2.1
      show (clear_subgraph_nodes (clear_id_nodes s).1).1.mem.id_nodes e = none
      rw [h2]
      exact h1
    · intro g hg
      exact (clear_subgraph_nodes_mem (clear_id_nodes s).1).1 g hg
  | some r =>
    have hs : DEG_graph_free s
        = ((clear_subgraph_nodes
              (clear_id_nodes { s with mem := RootDepsNode.destroy s.mem r }).1).1,
            [DepsNodeRef.root r]
              ++ (clear_id_nodes { s with mem := RootDepsNode.destroy s.mem r }).2
              ++ (clear_subgraph_nodes
                    (clear_id_nodes { s with mem := RootDepsNode.destroy s.mem r }).1).2) := by
      simp only [DEG_graph_free, hr]
    rw [hs]
    refine ⟨rfl, rfl, rfl, hr, ?_, ?_, ?_⟩
    · intro r' h
      cases h
      have h1 := (clear_id_nodes_mem { s with mem := RootDepsNode.destroy s.mem r }).2.2.2
      have h2 := (clear_subgraph_nodes_mem
        (clear_id_nodes { s with mem := RootDepsNode.destroy s.mem r }).1).2.2
      show (clear_subgraph_nodes
        (clear_id_nodes { s with mem := RootDepsNode.destroy s.mem r }).1).1.mem.root_nodes r
          = none
      rw [h2, h1]
      simp [RootDepsNode.destroy]
    · intro e he
      have h1 := (clear_id_nodes_mem { s with mem := RootDepsNode.destroy s.mem r }).1 e he
      have h2 := (clear_subgraph_nodes_mem
        (clear_id_nodes { s with mem := RootDepsNode.destroy s.mem r }).1).2.1
      show (clear_subgraph_nodes
        (clear_id_nodes { s with mem := RootDepsNode.destroy s.mem r }).1).1.mem.id_nodes e
          = none
      rw [h2]
      exact h1
    · intro g hg
      exact (clear_subgraph_nodes_mem
        (clear_id_nodes { s with mem := RootDepsNode.destroy s.mem r }).1).1 g hg

/-! ## Root and subgraph registries -/

theorem map_find_mem_values (k v : Addr) (m : IDNodeMap) (h : map_find k m = some v) :
    v ∈ m.map Prod.snd := by
  induction m with
  | nil => simp [map_find] at h
  | cons e rest ih =>
    obtain ⟨k', w⟩ := e
    by_cases hk : k' = k
    · have hv : w = v := by simpa [map_find, hk] using h
      simp [hv]
    · have h2 : map_find k rest = some v := by simpa [map_find, hk] using h
      simp [ih h2]

/-- C21: `add_subgraph_node(id)` inserts the new subgraph node into the
subgraph set and leaves the entity map as it was: every lookup in the entity
map, the one of `id` included, returns what it returned before (nothing when it
returned nothing), and never the new subgraph node when the allocator hands
out an address at which no registered entity node lives. -/
theorem add_subgraph_node_keeps_entity_map (id_name : Addr → String) (s : State)
    (id : Addr) :
    (add_subgraph_node id_name s id).1 ∈ (add_subgraph_node id_name s id).2.graph.subgraphs ∧
    (∀ g ∈ s.graph.subgraphs, g ∈ (add_subgraph_node id_name s id).2.graph.subgraphs) ∧
    (add_subgraph_node id_name s id).2.graph.id_hash = s.graph.id_hash ∧
    (∀ j, find_id_node (add_subgraph_node id_name s id).2.graph j = find_id_node s.graph j) ∧
    (find_id_node s.graph id = none →
      find_id_node (add_subgraph_node id_name s id).2.graph id = none) ∧
    (add_subgraph_node id_name s id).2.mem.id_nodes = s.mem.id_nodes ∧
    (add_subgraph_node id_name s id).2.mem.subgraph_nodes (add_subgraph_node id_name s id).1
      = some ⟨id, (id_name id).drop 2⟩ ∧
    (s.mem.next ∉ s.graph.id_hash.map Prod.snd →
      ∀ j, find_id_node (add_subgraph_node id_name s id).2.graph j
        ≠ some (add_subgraph_node id_name s id).1) := by
  refine ⟨?_, ?_, rfl, fun _ => rfl, fun h => h, rfl, ?_, ?_⟩
  · exact (mem_set_insert _ _ _).2 (Or.inl rfl)
  · intro g hg
    exact (mem_set_insert _ _ _).2 (Or.inr hg)
  · simp [add_subgraph_node]
  · intro hfresh j hj
    exact hfresh (map_find_mem_values j _ _ hj)

/-- C22, as stated, fails: in the example graph with the subgraph node 40,
`clear_subgraph_nodes` takes the node out of the subgraph set, with the entity
map, the root node and the entry tags as before; no `remove_subgraph_node` has
run. -/
theorem clear_subgraph_nodes_removes_example :
    40 ∈ scene_full.graph.subgraphs ∧
    40 ∉ (run_call id_name_example scene_full GraphCall.clear_subgraph_nodes).graph.subgraphs ∧
    GraphCall.clear_subgraph_nodes ≠ GraphCall.remove_subgraph 40 ∧
    (run_call id_name_example scene_full GraphCall.clear_subgraph_nodes).graph.subgraphs = [] ∧
    (run_call id_name_example scene_full GraphCall.clear_subgraph_nodes).graph.id_hash
      = scene_full.graph.id_hash ∧
    (run_call id_name_example scene_full GraphCall.clear_subgraph_nodes).graph.root_node
      = scene_full.graph.root_node ∧
    (run_call id_name_example scene_full GraphCall.clear_subgraph_nodes).graph.entry_tags
      = scene_full.graph.entry_tags ∧
    (run_call id_name_example scene_full GraphCall.clear_subgraph_nodes).mem.subgraph_nodes 40
      = none :=
  ⟨by decide, by decide, by decide, by decide, by decide, by decide, by decide, by decide⟩

/-- C22, amended: `remove_id_node(id)` leaves the subgraph set as it was, also
right after `add_subgraph_node(id)` for the same identity;
`remove_subgraph_node` erases exactly the node it is given; a call that takes
a node out of the subgraph set is `remove_subgraph_node` of that node,
`clear_subgraph_nodes` or the teardown of the graph, which runs
`clear_subgraph_nodes`; the last two leave the set empty. -/
theorem subgraphs_leave_by_remove_or_clear (id_name : Addr → String) (s : State)
    (id : Addr) :
    (remove_id_node s id).graph.subgraphs = s.graph.subgraphs ∧
    (remove_id_node (add_subgraph_node id_name s id).2 id).graph.subgraphs
      = (add_subgraph_node id_name s id).2.graph.subgraphs ∧
    (add_subgraph_node id_name s id).1
      ∈ (remove_id_node (add_subgraph_node id_name s id).2 id).graph.subgraphs ∧
    (∀ g, g ∉ (remove_subgraph_node s g).graph.subgraphs ∧
      ∀ x, x ≠ g → (x ∈ (remove_subgraph_node s g).graph.subgraphs ↔ x ∈ s.graph.subgraphs)) ∧
    (∀ (call : GraphCall) (g : Addr), g ∈ s.graph.subgraphs →
      g ∉ (run_call id_name s call).graph.subgraphs →
      call = GraphCall.remove_subgraph g ∨ call = GraphCall.clear_subgraph_nodes ∨
        call = GraphCall.clear) ∧
    (run_call id_name s GraphCall.clear_subgraph_nodes).graph.subgraphs = [] ∧
    (run_call id_name s GraphCall.clear).graph.subgraphs = [] ∧
    (run_call id_name s GraphCall.clear_id_nodes).graph.subgraphs = s.graph.subgraphs := by
  have hrem : ∀ (t : State) (i : Addr), (remove_id_node t i).graph.subgraphs
      = t.graph.subgraphs := by
    intro t i
    unfold remove_id_node
    cases find_id_node t.graph i <;> rfl
  refine ⟨hrem s id, hrem _ id, ?_, ?_, ?_, rfl, rfl, rfl⟩
  · rw [hrem]
    exact (mem_set_insert _ _ _).2 (Or.inl rfl)
  · intro g
    constructor
    · simp [remove_subgraph_node, mem_set_erase]
    · intro x hx
      simp [remove_subgraph_node, mem_set_erase, hx]
  · intro call g hg hout
    cases call with
    | clear_id_nodes => exact absurd hg hout
    | clear_subgraph_nodes => exact Or.inr (Or.inl rfl)
    | clear => exact Or.inr (Or.inr rfl)
    | add_entity i name =>
      exfalso
      apply hout
      show g ∈ (add_id_node s i name).2.graph.subgraphs
      unfold add_id_node
      cases find_id_node s.graph i <;> exact hg
    | remove_entity i =>
      exfalso
      apply hout
      show g ∈ (remove_id_node s i).graph.subgraphs
      rw [hrem]
      exact hg
    | add_relation a b ty d => exact absurd hg hout
    | tag_operation node =>
      exfalso
      apply hout
      show g ∈ (add_entry_tag s node).graph.subgraphs
      cases node <;> exact hg
    | solve => exact absurd hg hout
    | add_root =>
      exfalso
      apply hout
      show g ∈ (add_root_node s).2.graph.subgraphs
      unfold add_root_node
      cases s.graph.root_node <;> exact hg
    | add_subgraph i =>
      exfalso
      apply hout
      exact (mem_set_insert _ _ _).2 (Or.inr hg)
    | remove_subgraph x =>
      by_cases hx : g = x
      · rw [hx]
        exact Or.inl rfl
      · exfalso
        apply hout
        show g ∈ set_erase x s.graph.subgraphs
        exact (mem_set_erase x g _).2 ⟨hg, hx⟩

/-- C23: a new graph has no root node; `add_root_node` on a graph without root
creates one and stores it; on a graph with a root it returns that node and
changes nothing, so a second call returns the node of the first and leaves the
state of the first. -/
theorem add_root_node_single (s : State) :
    Graph.new.root_node = none ∧
    (add_root_node s).2.graph.root_node = some (add_root_node s).1 ∧
    (s.graph.root_node = none →
      (add_root_node s).1 = s.mem.next ∧
      (add_root_node s).2.mem.root_nodes (add_root_node s).1 = some ⟨"Root (Scene)"⟩) ∧
    (∀ r, s.graph.root_node = some r → add_root_node s = (r, s)) ∧
    add_root_node (add_root_node s).2 = ((add_root_node s).1, (add_root_node s).2) := by
  have h1 : (add_root_node s).2.graph.root_node = some (add_root_node s).1 := by
    unfold add_root_node
    cases h : s.graph.root_node with
    | none => rfl
    | some r => simpa using h
  have h2 : ∀ (t : State) (r : Addr), t.graph.root_node = some r → add_root_node t = (r, t) := by
    intro t r h
    unfold add_root_node
    simp only [h]
  refine ⟨rfl, h1, ?_, h2 s, h2 _ _ h1⟩
  intro h
  unfold add_root_node
  simp [h]

/-! ## Entry tags and ownership -/

end Depsgraph

namespace PTC

/-! ## Decimal numbers in property names -/

theorem digitChar_facts (d : Nat) (h : d < 10) :
    (Nat.digitChar d).isDigit = true ∧ (Nat.digitChar d).toNat - 48 = d := by
  interval_cases d <;> exact ⟨by decide, by decide⟩

theorem toDigitsCore_facts (fuel n : Nat) (ds : List Char) (hf : n < fuel)
    (hds : ∀ c ∈ ds, c.isDigit = true) :
    (∀ c ∈ Nat.toDigitsCore 10 fuel n ds, c.isDigit = true) ∧
    Nat.toDigitsCore 10 fuel n ds ≠ [] ∧
    (Nat.toDigitsCore 10 fuel n ds).foldl (fun a c => 10 * a + (c.toNat - 48)) 0
      = ds.foldl (fun a c => 10 * a + (c.toNat - 48)) n := by
  induction fuel generalizing n ds with
  | zero => exact absurd hf (Nat.not_lt_zero n)
  | succ fuel ih =>
    have hd := digitChar_facts (n % 10) (Nat.mod_lt n (by decide))
    by_cases h0 : n / 10 = 0
    · have hcore : Nat.toDigitsCore 10 (fuel + 1) n ds = Nat.digitChar (n % 10) :: ds := by
        simp [Nat.toDigitsCore, h0]
      have hn : n % 10 = n := by
        have := Nat.div_add_mod n 10
        rw [h0] at this
        simpa using this
      rw [hcore]
      refine ⟨?_, by simp, ?_⟩
      · intro c hc
        rcases List.mem_cons.1 hc with e | e
        · rw [e]; exact hd.1
        · exact hds c e
      · rw [List.foldl_cons, hd.2, hn]
        simp
    · have hcore : Nat.toDigitsCore 10 (fuel + 1) n ds
          = Nat.toDigitsCore 10 fuel (n / 10) (Nat.digitChar (n % 10) :: ds) := by
        simp [Nat.toDigitsCore, h0]
      have hlt : n / 10 < fuel := by
        have h1 : n / 10 < n := Nat.div_lt_self (Nat.pos_of_ne_zero (fun e => h0 (by simp [e])))
          (by decide)
        exact Nat.lt_of_lt_of_le h1 (Nat.le_of_lt_succ hf)
      have hds' : ∀ c ∈ Nat.digitChar (n % 10) :: ds, c.isDigit = true := by
        intro c hc
        rcases List.mem_cons.1 hc with e | e
        · rw [e]; exact hd.1
        · exact hds c e
      obtain ⟨i1, i2, i3⟩ := ih (n / 10) _ hlt hds'
      rw [hcore]
      refine ⟨i1, i2, ?_⟩
      rw [i3, List.foldl_cons, hd.2, Nat.div_add_mod]

theorem toDigits_facts (k : Nat) :
    (∀ c ∈ Nat.toDigits 10 k, c.isDigit = true) ∧ Nat.toDigits 10 k ≠ [] ∧
    digits_value (Nat.toDigits 10 k) = k := by
  have h := toDigitsCore_facts (k + 1) k [] (Nat.lt_succ_self k) (by simp)
  exact ⟨h.1, h.2.1, by simpa [digits_value, Nat.toDigits] using h.2.2⟩

theorem digit_ne (c x : Char) (hc : c.isDigit = true) (hx : x.isDigit = false) : c ≠ x := by
  intro e
  rw [e, hx] at hc
  cases hc

/-- Extraction reads back what insertion wrote, for the values of a
non-negative `int`. -/
theorem istream_ostream_int (n n0 : Int) (h0 : 0 ≤ n) (h1 : n < 2147483648) :
    istream_int (c_string (ostream_int n)) n0 = n := by
  obtain ⟨k, rfl⟩ := Int.eq_ofNat_of_zero_le h0
  have hk : k < 2147483648 := by exact_mod_cast h1
  obtain ⟨hdig, hne, hval⟩ := toDigits_facts k
  have hout : ostream_int (k : Int) = Nat.toDigits 10 k := by
    simp [ostream_int]
  have hc : c_string (Nat.toDigits 10 k) = Nat.toDigits 10 k := by
    unfold c_string
    rw [List.takeWhile_eq_self_iff]
    intro c hcm
    have := digit_ne c (Char.ofNat 0) (hdig c hcm) (by decide)
    simpa using this
  rw [hout, hc]
  obtain ⟨c, t, hl⟩ := List.exists_cons_of_ne_nil hne
  have hcd : c.isDigit = true := hdig c (by rw [hl]; exact List.mem_cons_self c t)
  have hsp : isspace c = false := by
    have e1 := digit_ne c ' ' hcd (by decide)
    have e2 := digit_ne c '\t' hcd (by decide)
    have e3 := digit_ne c '\n' hcd (by decide)
    have e4 := digit_ne c '\r' hcd (by decide)
    have e5 := digit_ne c (Char.ofNat 11) hcd (by decide)
    have e6 := digit_ne c (Char.ofNat 12) hcd (by decide)
    simp [isspace, e1, e2, e3, e4, e5, e6]
  have hminus := digit_ne c '-' hcd (by decide)
  have hplus := digit_ne c '+' hcd (by decide)
  have htake : (Nat.toDigits 10 k).takeWhile Char.isDigit = Nat.toDigits 10 k := by
    rw [List.takeWhile_eq_self_iff]
    exact hdig
  have hdrop : (Nat.toDigits 10 k).dropWhile isspace = Nat.toDigits 10 k := by
    rw [hl]
    simp [List.dropWhile, hsp]
  have hhead : (Nat.toDigits 10 k).head? = some c := by rw [hl]; rfl
  unfold istream_int
  simp only [hdrop, hhead, Option.some.injEq, hminus, hplus, or_self, if_false, htake, hne,
    hval, decide_False]
  have hle : ¬ k > 2147483647 := by omega
  simp [hle]

theorem c_string_of_no_nul (l : List Char) (h : Char.ofNat 0 ∉ l) : c_string l = l := by
  unfold c_string
  rw [List.takeWhile_eq_self_iff]
  intro c hc
  have : c ≠ Char.ofNat 0 := fun e => h (e ▸ hc)
  simpa using this

theorem cdtype_to_name_named (get : Nat → Int → Option (List Char)) (type : Nat) (n : Int)
    (l : List Char) (hg : get type n = some l) (hl : l ≠ []) (hnul : Char.ofNat 0 ∉ l) :
    cdtype_to_name get type n = 'S' :: l := by
  unfold cdtype_to_name
  rw [hg]
  simp only [c_string_of_no_nul l hnul]
  simp [hl]

theorem cdtype_to_name_unnamed (get : Nat → Int → Option (List Char)) (type : Nat) (n : Int)
    (hg : get type n = none ∨ get type n = some []) :
    cdtype_to_name get type n = 'N' :: ostream_int n := by
  unfold cdtype_to_name
  rcases hg with hg | hg
  · rw [hg]
  · rw [hg]
    simp [c_string]

/-- C25: for a layer of index `n` with a non-empty name `L` shorter than the
buffer, `cdtype_from_name` of the name that `cdtype_to_name` builds yields
`layer_name = L` and `n = -1`; for an unnamed layer of index `n >= 0` it yields
the empty `layer_name` and the index `n`. So two layers with different names,
two unnamed layers with different indices, and a named and an unnamed layer
get different property names. (`BLI_strncpy` copies a string shorter than the
buffer whole; `n0` is the value that `*n` holds at the call of
`cdtype_from_name`, and the results do not depend on it.) -/
theorem layer_property_name_roundtrip (get : Nat → Int → Option (List Char))
    (cpy : List Char → Nat → List Char) (type max : Nat) (n n0 : Int) (L : List Char)
    (hcpy : ∀ src : List Char, src.length < max → cpy src max = src)
    (hn0 : 0 ≤ n) (hn1 : n < 2147483648)
    (hL : L ≠ []) (hnul : Char.ofNat 0 ∉ L) (hlen : L.length < max) :
    (get type n = some L →
      cdtype_from_name cpy (cdtype_to_name get type n) n0 max = (-1, L)) ∧
    (get type n = none ∨ get type n = some [] →
      cdtype_from_name cpy (cdtype_to_name get type n) n0 max = (n, [])) ∧
    (∀ (m : Int) (L' : List Char), get type n = some L → get type m = some L' →
      L' ≠ [] → Char.ofNat 0 ∉ L' → L ≠ L' →
      cdtype_to_name get type n ≠ cdtype_to_name get type m) ∧
    (∀ m : Int, 0 ≤ m → m < 2147483648 →
      (get type n = none ∨ get type n = some []) →
      (get type m = none ∨ get type m = some []) → n ≠ m →
      cdtype_to_name get type n ≠ cdtype_to_name get type m) ∧
    (∀ m : Int, get type n = some L → (get type m = none ∨ get type m = some []) →
      cdtype_to_name get type n ≠ cdtype_to_name get type m) := by
  refine ⟨?_, ?_, ?_, ?_, ?_⟩
  · intro hg
    rw [cdtype_to_name_named get type n L hg hL hnul]
    simp only [cdtype_from_name, if_true]
    rw [c_string_of_no_nul L hnul, hcpy L hlen]
  · intro hg
    rw [cdtype_to_name_unnamed get type n hg]
    have hNS : ('N' : Char) ≠ 'S' := by decide
    simp only [cdtype_from_name, hNS, if_false, if_true]
    rw [istream_ostream_int n n0 hn0 hn1]
  · intro m L' hg hg' hL' hnul' hne heq
    rw [cdtype_to_name_named get type n L hg hL hnul,
      cdtype_to_name_named get type m L' hg' hL' hnul'] at heq
    exact hne (List.cons.inj heq).2
  · intro m hm0 hm1 hg hg' hne heq
    rw [cdtype_to_name_unnamed get type n hg, cdtype_to_name_unnamed get type m hg'] at heq
    have h := congrArg (fun l => istream_int (c_string l) n0) (List.cons.inj heq).2
    simp only [istream_ostream_int n n0 hn0 hn1, istream_ostream_int m n0 hm0 hm1] at h
    exact hne h
  · intro m hg hg' heq
    rw [cdtype_to_name_named get type n L hg hL hnul,
      cdtype_to_name_unnamed get type m hg'] at heq
    exact absurd (List.cons.inj heq).1 (by decide)

theorem BLI_strncpy_example_whole (src : List Char) (h : src.length < 64) :
    BLI_strncpy_example src 64 = src := by
  unfold BLI_strncpy_example
  exact List.take_of_length_le (by omega)

theorem layer_property_name_roundtrip_witness :
    ((∀ src : List Char, src.length < 64 → BLI_strncpy_example src 64 = src) ∧
      (0 : Int) ≤ 0 ∧ (0 : Int) < 2147483648 ∧
      ['U', 'V', 'M', 'a', 'p'] ≠ [] ∧ Char.ofNat 0 ∉ ['U', 'V', 'M', 'a', 'p'] ∧
      ['U', 'V', 'M', 'a', 'p'].length < 64 ∧
      layer_name_example 0 0 = some ['U', 'V', 'M', 'a', 'p']) ∧
    cdtype_from_name BLI_strncpy_example (cdtype_to_name layer_name_example 0 0) 7 64
      = (-1, ['U', 'V', 'M', 'a', 'p']) ∧
    (((0 : Int) ≤ 3 ∧ (3 : Int) < 2147483648 ∧
      (layer_name_example 0 3 = none ∨ layer_name_example 0 3 = some [])) ∧
     cdtype_from_name BLI_strncpy_example (cdtype_to_name layer_name_example 0 3) 7 64
      = (3, [])) :=
  ⟨⟨BLI_strncpy_example_whole, by decide, by decide, by decide, by decide, by decide,
      by decide⟩,
    (layer_property_name_roundtrip layer_name_example BLI_strncpy_example 0 64 0 7
      ['U', 'V', 'M', 'a', 'p'] BLI_strncpy_example_whole (by decide) (by decide)
      (by decide) (by decide) (by decide)).1 (by decide),
    ⟨by decide, by decide, Or.inr (by decide)⟩,
    (layer_property_name_roundtrip layer_name_example BLI_strncpy_example 0 64 3 7
      ['U', 'V', 'M', 'a', 'p'] BLI_strncpy_example_whole (by decide) (by decide)
      (by decide) (by decide) (by decide)).2.1 (Or.inr (by decide))⟩

/-! ## Origin index samples -/

/-- C26: four origin indices 10, 20, 30, 40 are written with `num_data = 4`
and read back into a destination that holds four zeros: the result is
`PTC_READ_SAMPLE_EXACT`, but `memcpy` copies `num_data` bytes, the first `int`,
and the destination ends as 10, 0, 0, 0. With a stored sample of another size
the result is `PTC_READ_SAMPLE_INVALID` and the destination is unchanged. -/
theorem read_sample_origindex_copies_bytes :
    write_sample_CD_ORIGINDEX [10, 20, 30, 40] 4 = [10, 20, 30, 40] ∧
    (read_sample_CD_ORIGINDEX (write_sample_CD_ORIGINDEX [10, 20, 30, 40] 4) [0, 0, 0, 0] 4).1
      = PTCReadSampleResult.PTC_READ_SAMPLE_EXACT ∧
    (read_sample_CD_ORIGINDEX (write_sample_CD_ORIGINDEX [10, 20, 30, 40] 4) [0, 0, 0, 0] 4).2
      = [10, 0, 0, 0] ∧
    (read_sample_CD_ORIGINDEX (write_sample_CD_ORIGINDEX [10, 20, 30, 40] 4) [0, 0, 0, 0] 4).2
      ≠ [10, 20, 30, 40] ∧
    read_sample_CD_ORIGINDEX (write_sample_CD_ORIGINDEX [10, 20, 30, 40] 3) [7, 7, 7, 7] 4
      = (PTCReadSampleResult.PTC_READ_SAMPLE_INVALID, [7, 7, 7, 7]) :=
  ⟨by decide, by decide, by decide, by decide, by decide⟩

end PTC
